import Mathlib

/-!
table-procexec: the request/reply engine of the bridge.

A shallow embedding of `extras/tables/table-procexec/table-procexec.c`.

* C strings and the line buffer are `List Char`, one `Char` per byte.  The end
  of the list plays the role of the terminating NUL of the buffer, and the C
  library functions used by the program (`strlen`, `strcmp`, `strncmp`,
  `strlcpy`, `getline`, the `printf` conversions) are modelled with their
  NUL-aware behaviour.
* A pointer into the line buffer is the suffix of the buffer it points at, so
  `l += n` is `List.drop n` and `*l` is the head of the list (NUL at the end).
* The globals `services`, `id`, `line` and the two directions of the stream
  `backend` are the fields of `State`.
* `fatal`/`fatalx` end the process: a function that reaches one of them
  returns `Result.fatal`.
* What the outside world supplies during one request (clock, table name,
  random number, outcome of the flush) is an `Env`.
* `main` is modelled from the configuration lines on: the registration loop,
  the tests after it, and the entry into dispatch.
* `State.sent` is bookkeeping for the statements about outstanding requests;
  no function of the program reads it.
-/

namespace Procexec

/-! ## C strings -/

/-- The NUL byte that terminates a C string. -/
def NUL : Char := Char.ofNat 0

/-- The C string stored at `p`: the bytes before the first NUL. -/
def cstr (p : List Char) : List Char := p.takeWhile (fun c => c != NUL)

/-- `*p`: the byte at `p`; past the last byte of the buffer stands its NUL. -/
def peek (p : List Char) : Char := p.headD NUL

/-- `strlen(p)`. -/
def strlen (p : List Char) : Nat := (cstr p).length

/-- `strncmp(a, b, n)`: compares at most `n` bytes, stopping after a NUL. -/
def strncmp : List Char → List Char → Nat → Int
  | _, _, 0 => 0
  | a, b, n + 1 =>
    if peek a ≠ peek b then (peek a).toNat - (peek b).toNat
    else if peek a = NUL then 0
    else strncmp a.tail b.tail n

/-- `strcmp(a, b)`. -/
def strcmp : List Char → List Char → Int
  | [], b => 0 - (peek b).toNat
  | c :: a, b =>
    if c ≠ peek b then c.toNat - (peek b).toNat
    else if c = NUL then 0
    else strcmp a b.tail

/-- `strlcpy(dst, src, sz)`: the C string held by `dst` afterwards, and the
return value `strlen(src)`.  With `sz = 0` nothing is stored. -/
def strlcpy (dst src : List Char) (sz : Nat) : List Char × Nat :=
  (if sz = 0 then dst else (cstr src).take (sz - 1), strlen src)

/-- `getline`: `none` is the return value -1 (end of file with nothing read);
otherwise the bytes up to and including the first line feed (or up to end of
file), and the bytes left in the stream. -/
def getline : List Char → Option (List Char × List Char)
  | [] => none
  | c :: cs =>
    if c = '\n' then some ([c], cs)
    else
      match getline cs with
      | none => some ([c], [])
      | some (l, rest) => some (c :: l, rest)

/-- The statements `if (line[linelen-1] == '\n') line[--linelen] = '\0';`. -/
def chomp (l : List Char) : List Char :=
  if l.getLast? = some '\n' then l.dropLast else l

/-! ## printf conversions -/

/-- The conversion `%s`: prints the C string. -/
def fmt_s (p : List Char) : List Char := cstr p

/-- The conversion `%llx`. -/
def fmt_llx (n : Nat) : List Char := Nat.toDigits 16 n

/-- The conversion `%lld`. -/
def fmt_lld (n : Int) : List Char :=
  if n < 0 then '-' :: Nat.toDigits 10 n.natAbs else Nat.toDigits 10 n.natAbs

/-- The conversion `%06ld`: zero padding to a field of six, sign included. -/
def fmt_06ld (n : Int) : List Char :=
  let d := Nat.toDigits 10 n.natAbs
  if n < 0 then '-' :: (List.replicate (5 - d.length) '0' ++ d)
  else List.replicate (6 - d.length) '0' ++ d

/-! ## Service kinds -/

/-- Modelled from the spec: `enum table_service` of `smtpd-api.h`, which is not
part of the sources at hand.  The nine service kinds of the capability mask. -/
inductive table_service where
  | K_ALIAS
  | K_DOMAIN
  | K_CREDENTIALS
  | K_NETADDR
  | K_USERINFO
  | K_SOURCE
  | K_MAILADDR
  | K_ADDRNAME
  | K_MAILADDRMAP
  deriving DecidableEq, Repr

/-- Modelled from the spec: the flag of each service kind in the mask, one bit
per kind (the values of `enum table_service`). -/
def table_service.toInt : table_service → Int
  | .K_ALIAS => 0x001
  | .K_DOMAIN => 0x002
  | .K_CREDENTIALS => 0x004
  | .K_NETADDR => 0x008
  | .K_USERINFO => 0x010
  | .K_SOURCE => 0x020
  | .K_MAILADDR => 0x040
  | .K_ADDRNAME => 0x080
  | .K_MAILADDRMAP => 0x100

/-- All nine kinds. -/
def table_service.all : List table_service :=
  [.K_ALIAS, .K_DOMAIN, .K_CREDENTIALS, .K_NETADDR, .K_USERINFO, .K_SOURCE,
   .K_MAILADDR, .K_ADDRNAME, .K_MAILADDRMAP]

/-! ## State -/

/-- `#define PROTOCOL_VERSION "0.1"`. -/
def PROTOCOL_VERSION : List Char := "0.1".toList

/-- The globals of the program and the stream to the child. -/
structure State where
  /-- the global `services` -/
  services : Int
  /-- the C string in the global buffer `id` -/
  id : List Char
  /-- the global line buffer, `linelen` bytes -/
  line : List Char
  /-- read side of `backend`: what the child sends, up to end of file -/
  rx : List Char
  /-- write side of `backend`: everything written to the child so far -/
  tx : List Char
  /-- bookkeeping, not a variable of the program: the number of request lines
  that `send_request` has completed -/
  sent : Nat := 0
  deriving DecidableEq, Repr

/-- What the outside world supplies during one request. -/
structure Env where
  /-- `tv.tv_sec` from `gettimeofday` -/
  tv_sec : Int
  /-- `tv.tv_usec` from `gettimeofday` -/
  tv_usec : Int
  /-- `table_api_get_name()` -/
  table_name : List Char
  /-- the value returned by `arc4random()` -/
  arc4random : Nat
  /-- whether `fflush(backend)` succeeds -/
  fflush_ok : Bool
  deriving DecidableEq, Repr

/-- Outcome of a function that may end the process through `fatal`/`fatalx`. -/
inductive Result (α : Type) where
  | fatal : Result α
  | done (val : α) (st : State) : Result α
  deriving DecidableEq, Repr

/-- `fprintf(backend, ...)`/`fputc(..., backend)`: append to the stream. -/
def State.write (s : State) (bytes : List Char) : State :=
  { s with tx := s.tx ++ bytes }

/-- Bookkeeping: one more request line has been written in full. -/
def State.count_request (s : State) : State :=
  { s with sent := s.sent + 1 }

/-! ## The codec -/

/-- `nextid`: renders a fresh 32-bit random value into `id`. -/
def nextid (e : Env) (s : State) : Result (List Char) :=
  let out := fmt_llx (e.arc4random % 2 ^ 32)
  if 64 ≤ out.length then .fatal
  else .done out { s with id := out }

/-- `service_name`; `none` is the `fatalx("unknown service")` exit. -/
def service_name (service : Int) : Option (List Char) :=
  if service = table_service.K_ALIAS.toInt then some "alias".toList
  else if service = table_service.K_DOMAIN.toInt then some "domain".toList
  else if service = table_service.K_CREDENTIALS.toInt then some "credentials".toList
  else if service = table_service.K_NETADDR.toInt then some "netaddr".toList
  else if service = table_service.K_USERINFO.toInt then some "userinfo".toList
  else if service = table_service.K_SOURCE.toInt then some "source".toList
  else if service = table_service.K_MAILADDR.toInt then some "mailaddr".toList
  else if service = table_service.K_ADDRNAME.toInt then some "addrname".toList
  else if service = table_service.K_MAILADDRMAP.toInt then some "mailaddrmap".toList
  else none

/-- `send_request(type, service, param)`; `param = none` is a NULL pointer.
The value is 0, or -1 when the flush fails. -/
def send_request (e : Env) (type : List Char) (service : Int)
    (param : Option (List Char)) (s : State) : Result Int :=
  let s1 := s.write ("table|".toList ++ fmt_s PROTOCOL_VERSION ++ "|".toList
    ++ fmt_lld e.tv_sec ++ ".".toList ++ fmt_06ld e.tv_usec ++ "|".toList
    ++ fmt_s e.table_name ++ "|".toList ++ fmt_s type)
  let sent : Result Unit :=
    if service ≠ -1 then
      match service_name service with
      | none => .fatal
      | some name =>
        match nextid e s1 with
        | .fatal => .fatal
        | .done i s2 =>
          let s3 := s2.write ("|".toList ++ fmt_s name ++ "|".toList ++ fmt_s i)
          let s4 :=
            match param with
            | some p => s3.write ("|".toList ++ fmt_s p)
            | none => s3
          .done () (s4.write ['\n']).count_request
    else
      match nextid e s1 with
      | .fatal => .fatal
      | .done i s2 =>
        .done () (s2.write ("|".toList ++ fmt_s i ++ ['\n'])).count_request
  match sent with
  | .fatal => .fatal
  | .done _ s5 => if e.fflush_ok then .done 0 s5 else .done (-1) s5

/-- `parse_reply(type)`: `fatal` when `getline` returns -1; the value `none`
is the NULL pointer, `some l` the pointer `l` into the line buffer. -/
def parse_reply (type : List Char) (s : State) : Result (Option (List Char)) :=
  match getline s.rx with
  | none => .fatal
  | some (raw, rest) =>
    let s1 : State := { s with line := chomp raw, rx := rest }
    let l := s1.line
    let len := strlen type
    if strncmp l type len ≠ 0 then .done none s1
    else
      let l := l.drop len
      if peek l ≠ '|' then .done none s1
      else
        let l := l.drop 1
        let len := strlen s1.id
        if strncmp l s1.id len ≠ 0 then .done none s1
        else
          let l := l.drop len
          if peek l ≠ '|' then .done none s1
          else .done (some (l.drop 1)) s1

/-! ## The operation handlers

The warnings of `log_warnx` go to the log and change nothing in `State`. -/

/-- `table_procexec_update`. -/
def table_procexec_update (e : Env) (s : State) : Result Int :=
  match send_request e "update".toList (-1) none s with
  | .fatal => .fatal
  | .done rc s1 =>
    if rc = -1 then .fatal
    else
      match parse_reply "update-result".toList s1 with
      | .fatal => .fatal
      | .done none _ => .fatal
      | .done (some r) s2 =>
        if strcmp r "ok".toList = 0 then .done 1 s2
        else .done 0 s2

/-- `table_procexec_check`; the argument `params` is not used. -/
def table_procexec_check (e : Env) (service : Int) (key : List Char)
    (s : State) : Result Int :=
  if Int.land s.services service = 0 then .done (-1) s
  else
    match send_request e "check".toList service (some key) s with
    | .fatal => .fatal
    | .done rc s1 =>
      if rc = -1 then .fatal
      else
        match parse_reply "check-result".toList s1 with
        | .fatal => .fatal
        | .done none _ => .fatal
        | .done (some r) s2 =>
          if strcmp r "found".toList = 0 then .done 1 s2
          else .done (-1) s2

/-- `table_procexec_lookup`: the return value and the C string in `dst`. -/
def table_procexec_lookup (e : Env) (service : Int) (key : List Char)
    (dst : List Char) (sz : Nat) (s : State) : Result (Int × List Char) :=
  if Int.land s.services service = 0 then .done (-1, dst) s
  else
    match send_request e "lookup".toList service (some key) s with
    | .fatal => .fatal
    | .done rc s1 =>
      if rc = -1 then .fatal
      else
        match parse_reply "lookup-result".toList s1 with
        | .fatal => .fatal
        | .done none _ => .fatal
        | .done (some r) s2 =>
          if strncmp r "found|".toList 6 = 0 then
            let r := r.drop 6
            let cp := strlcpy dst r sz
            if sz ≤ cp.2 then .done (-1, cp.1) s2
            else .done (1, cp.1) s2
          else if strcmp r "not-found".toList = 0 then .done (0, dst) s2
          else .done (-1, dst) s2

/-- `table_procexec_fetch`.  The local pointer `k` is read without ever being
assigned; the argument `k` stands for whatever string it happens to address. -/
def table_procexec_fetch (e : Env) (service : Int) (dst : List Char) (sz : Nat)
    (k : List Char) (s : State) : Result (Int × List Char) :=
  if Int.land s.services service = 0 then .done (-1, dst) s
  else
    match send_request e "fetch".toList service none s with
    | .fatal => .fatal
    | .done rc s1 =>
      if rc ≠ 0 then .fatal
      else
        match parse_reply "fetch-result".toList s1 with
        | .fatal => .fatal
        | .done none _ => .fatal
        | .done (some r) s2 =>
          if strcmp r "not-found".toList = 0 then .done (0, dst) s2
          else if strcmp r "error".toList = 0 then .done (-1, dst) s2
          else if strncmp r "found|".toList 6 ≠ 0 then .fatal
          else
            let cp := strlcpy dst k sz
            if sz ≤ cp.2 then .done (-1, cp.1) s2
            else .done (1, cp.1) s2

/-! ## The handshake of `main`

Option parsing, `spawn_backend` and `fdopen` come before and are not modelled:
`main` starts at the configuration lines, with the globals zero. -/

set_option linter.unusedVariables false in
/-- The registration loop `while ((linelen = getline(...)) != -1) { ... }`.
It returns when `getline` returns -1 and at the `break` of `register|ready`. -/
def register_loop (s : State) : Result Unit :=
  match h : getline s.rx with
  | none => .done () s
  | some (raw, rest) =>
    let s1 : State := { s with line := chomp raw, rx := rest }
    if strncmp s1.line "register|".toList 9 ≠ 0 then .fatal
    else
      let service := s1.line.drop 9
      if strcmp service "ready".toList = 0 then .done () s1
      else if strcmp service "alias".toList = 0 then
        register_loop { s1 with services := Int.lor s1.services table_service.K_ALIAS.toInt }
      else if strcmp service "domain".toList = 0 then
        register_loop { s1 with services := Int.lor s1.services table_service.K_DOMAIN.toInt }
      else if strcmp service "credentials".toList = 0 then
        register_loop
          { s1 with services := Int.lor s1.services table_service.K_CREDENTIALS.toInt }
      else if strcmp service "netaddr".toList = 0 then
        register_loop { s1 with services := Int.lor s1.services table_service.K_NETADDR.toInt }
      else if strcmp service "userinfo".toList = 0 then
        register_loop { s1 with services := Int.lor s1.services table_service.K_USERINFO.toInt }
      else if strcmp service "source".toList = 0 then
        register_loop { s1 with services := Int.lor s1.services table_service.K_SOURCE.toInt }
      else if strcmp service "mailaddr".toList = 0 then
        register_loop { s1 with services := Int.lor s1.services table_service.K_MAILADDR.toInt }
      else if strcmp service "addrname".toList = 0 then
        register_loop { s1 with services := Int.lor s1.services table_service.K_ADDRNAME.toInt }
      else if strcmp service "mailaddrmap".toList = 0 then
        register_loop
          { s1 with services := Int.lor s1.services table_service.K_MAILADDRMAP.toInt }
      else .fatal
termination_by s.rx.length
decreasing_by
  all_goals
    simp_wf
    have key : ∀ (l raw1 rest1 : List Char),
        getline l = some (raw1, rest1) → rest1.length < l.length := by
      intro l
      induction l with
      | nil =>
        intro raw1 rest1 hg
        simp [getline] at hg
      | cons c cs ih =>
        intro raw1 rest1 hg
        simp only [getline] at hg
        split at hg
        · simp only [Option.some.injEq, Prod.mk.injEq] at hg
          rw [← hg.2]
          simp
        · split at hg
          · simp only [Option.some.injEq, Prod.mk.injEq] at hg
            rw [← hg.2]
            simp
          · rename_i l1 r1 hcs
            simp only [Option.some.injEq, Prod.mk.injEq] at hg
            rw [← hg.2]
            have := ih l1 r1 hcs
            simp only [List.length_cons]
            omega
    exact key _ _ _ h

/-- `main` from the configuration lines on.  `child` is what the child sends
until end of file, `ferror` the value of `ferror(backend)` after the loop.
`done` stands for the four `table_api_on_*` registrations followed by
`table_api_dispatch()`, entered in the state returned. -/
def main (ferror : Bool) (child : List Char) : Result Unit :=
  let s0 : State := { services := 0, id := [], line := [], rx := child, tx := [] }
  let s1 := ((s0.write "config|smtpd-version|7.4.0\n".toList).write
    ("config|protocol|".toList ++ PROTOCOL_VERSION ++ "\n".toList)).write
    "config|ready\n".toList
  match register_loop s1 with
  | .fatal => .fatal
  | .done _ s2 =>
    if ferror then .fatal
    else if s2.services = 0 then .fatal
    else .done () s2

/-! ## Vocabulary of the statements -/

/-- The correlation id that `nextid` produces from the random value of `e`. -/
def fresh_id (e : Env) : List Char := fmt_llx (e.arc4random % 2 ^ 32)

/-- The bytes of `l` after the prefix `pre`, when `l` starts with `pre`. -/
def payload_after (pre l : List Char) : Option (List Char) :=
  if pre <+: l then some (l.drop pre.length) else none

/-- The value a function returned; `none` when it ended the process. -/
def Result.val? {α : Type} : Result α → Option α
  | .fatal => none
  | .done v _ => some v

/-- The reply line `type|id|payload`. -/
def reply_line (type id payload : List Char) : List Char :=
  type ++ '|' :: (id ++ '|' :: payload)

/-- The value of a digit `0`-`9`, `a`-`f`. -/
def digit_value (c : Char) : Nat :=
  if c.toNat < 58 then c.toNat - 48 else c.toNat - 87

/-- A string of digits read back as a number in base `b`. -/
def read_base (b : Nat) (l : List Char) : Nat :=
  l.foldl (fun a c => b * a + digit_value c) 0

/-- The name of a service kind in the line protocol. -/
def table_service.name : table_service → List Char
  | .K_ALIAS => "alias".toList
  | .K_DOMAIN => "domain".toList
  | .K_CREDENTIALS => "credentials".toList
  | .K_NETADDR => "netaddr".toList
  | .K_USERINFO => "userinfo".toList
  | .K_SOURCE => "source".toList
  | .K_MAILADDR => "mailaddr".toList
  | .K_ADDRNAME => "addrname".toList
  | .K_MAILADDRMAP => "mailaddrmap".toList

/-- The lines `register|<name>`, one per kind of the list, each with its line
feed. -/
def register_lines : List table_service → List Char
  | [] => []
  | k :: ks => "register|".toList ++ k.name ++ '\n' :: register_lines ks

/-- A list of lines as a stream, each line followed by its line feed. -/
def unlines : List (List Char) → List Char
  | [] => []
  | l :: ls => l ++ '\n' :: unlines ls

/-- The number of lines that `getline` can still read from a stream. -/
def nlines : List Char → Nat
  | [] => 0
  | c :: cs => if c = '\n' then nlines cs + 1 else if cs = [] then 1 else nlines cs

/-- The kind that a name of the line protocol denotes, if any. -/
def table_service.ofName? (nm : List Char) : Option table_service :=
  if nm = "alias".toList then some .K_ALIAS
  else if nm = "domain".toList then some .K_DOMAIN
  else if nm = "credentials".toList then some .K_CREDENTIALS
  else if nm = "netaddr".toList then some .K_NETADDR
  else if nm = "userinfo".toList then some .K_USERINFO
  else if nm = "source".toList then some .K_SOURCE
  else if nm = "mailaddr".toList then some .K_MAILADDR
  else if nm = "addrname".toList then some .K_ADDRNAME
  else if nm = "mailaddrmap".toList then some .K_MAILADDRMAP
  else none

/-- The chain `else if (!strcmp(service, "alias")) ... else fatalx(...)` of the
registration loop, as the kind it selects; `none` is the final `fatalx`. -/
def table_service.ofService? (service : List Char) : Option table_service :=
  if strcmp service "alias".toList = 0 then some .K_ALIAS
  else if strcmp service "domain".toList = 0 then some .K_DOMAIN
  else if strcmp service "credentials".toList = 0 then some .K_CREDENTIALS
  else if strcmp service "netaddr".toList = 0 then some .K_NETADDR
  else if strcmp service "userinfo".toList = 0 then some .K_USERINFO
  else if strcmp service "source".toList = 0 then some .K_SOURCE
  else if strcmp service "mailaddr".toList = 0 then some .K_MAILADDR
  else if strcmp service "addrname".toList = 0 then some .K_ADDRNAME
  else if strcmp service "mailaddrmap".toList = 0 then some .K_MAILADDRMAP
  else none

/-- The mask that `services |= K_...` builds from the kinds of a list. -/
def mask_of (ks : List table_service) : Int :=
  ks.foldl (fun m k => Int.lor m k.toInt) 0

/-- The state in which a function returned; `none` when it ended the process. -/
def Result.state? {α : Type} : Result α → Option State
  | .fatal => none
  | .done _ st => some st

/-- The position of the flag of a kind in the mask. -/
def table_service.idx : table_service → Nat
  | .K_ALIAS => 0
  | .K_DOMAIN => 1
  | .K_CREDENTIALS => 2
  | .K_NETADDR => 3
  | .K_USERINFO => 4
  | .K_SOURCE => 5
  | .K_MAILADDR => 6
  | .K_ADDRNAME => 7
  | .K_MAILADDRMAP => 8

/-- The state in which `main` enters the registration loop: the globals zero,
the three configuration lines written. -/
def loop_entry (child : List Char) : State :=
  { services := 0, id := [], line := [], rx := child,
    tx := "config|smtpd-version|7.4.0\nconfig|protocol|0.1\nconfig|ready\n".toList }

/-- A call of one of the four handlers by the host, with its arguments. -/
inductive Call where
  | update
  | check (service : Int) (key : List Char)
  | lookup (service : Int) (key dst : List Char) (sz : Nat)
  | fetch (service : Int) (dst : List Char) (sz : Nat) (k : List Char)

/-- The handler call carried out; the value is the result code. -/
def Call.exec (c : Call) (e : Env) (s : State) : Result Int :=
  match c with
  | .update => table_procexec_update e s
  | .check service key => table_procexec_check e service key s
  | .lookup service key dst sz =>
    match table_procexec_lookup e service key dst sz s with
    | .fatal => .fatal
    | .done v st => .done v.1 st
  | .fetch service dst sz k =>
    match table_procexec_fetch e service dst sz k s with
    | .fatal => .fatal
    | .done v st => .done v.1 st

/-- Handler calls one after the other, each with what the outside world
supplies for it; the process ends with the first call that ends it. -/
def run : List (Call × Env) → State → Result (List Int)
  | [], s => .done [] s
  | (c, e) :: cs, s =>
    match c.exec e s with
    | .fatal => .fatal
    | .done v s1 =>
      match run cs s1 with
      | .fatal => .fatal
      | .done vs s2 => .done (v :: vs) s2

/-- The replies `check-result|<id>|found`, one per request, each carrying the
id of its own request. -/
def found_replies : List Env → List Char
  | [] => []
  | e :: es =>
    reply_line "check-result".toList (fresh_id e) "found".toList ++ '\n' :: found_replies es

/-- The number of requests sent minus the number of reply lines consumed,
both counted from the state `s0` on. -/
def outstanding (s0 s : State) : Int :=
  ((s.sent : Int) - s0.sent) - ((nlines s0.rx : Int) - nlines s.rx)

/-- One exchange with the child: one `send_request`, then, when it did not
fail, one `parse_reply`, then the decoding of the payload. -/
def round_trip {α : Type} (e : Env) (type : List Char) (service : Int)
    (param : Option (List Char)) (failed : Int → Bool) (rtype : List Char)
    (decode : List Char → State → Result α) (s : State) : Result α :=
  match send_request e type service param s with
  | .fatal => .fatal
  | .done rc s1 =>
    if failed rc then .fatal
    else
      match parse_reply rtype s1 with
      | .fatal => .fatal
      | .done none _ => .fatal
      | .done (some r) s2 => decode r s2

/-- The decoding of the payload in `table_procexec_update`. -/
def decode_update (r : List Char) (s2 : State) : Result Int :=
  if strcmp r "ok".toList = 0 then .done 1 s2 else .done 0 s2

/-- The decoding of the payload in `table_procexec_check`. -/
def decode_check (r : List Char) (s2 : State) : Result Int :=
  if strcmp r "found".toList = 0 then .done 1 s2 else .done (-1) s2

/-- The decoding of the payload in `table_procexec_lookup`. -/
def decode_lookup (dst : List Char) (sz : Nat) (r : List Char) (s2 : State) :
    Result (Int × List Char) :=
  if strncmp r "found|".toList 6 = 0 then
    if sz ≤ (strlcpy dst (r.drop 6) sz).2 then .done (-1, (strlcpy dst (r.drop 6) sz).1) s2
    else .done (1, (strlcpy dst (r.drop 6) sz).1) s2
  else if strcmp r "not-found".toList = 0 then .done (0, dst) s2
  else .done (-1, dst) s2

/-- The decoding of the payload in `table_procexec_fetch`. -/
def decode_fetch (dst : List Char) (sz : Nat) (k : List Char) (r : List Char)
    (s2 : State) : Result (Int × List Char) :=
  if strcmp r "not-found".toList = 0 then .done (0, dst) s2
  else if strcmp r "error".toList = 0 then .done (-1, dst) s2
  else if strncmp r "found|".toList 6 ≠ 0 then .fatal
  else if sz ≤ (strlcpy dst k sz).2 then .done (-1, (strlcpy dst k sz).1) s2
  else .done (1, (strlcpy dst k sz).1) s2

/-! ## Facts about the C string functions -/

theorem toNat_sub_ne_zero {a b : Char} (h : a ≠ b) : (a.toNat : Int) - b.toNat ≠ 0 := by
  intro h0
  apply h
  have h1 : a.toNat = b.toNat := by omega
  have h2 := congrArg Char.ofNat h1
  simpa using h2

theorem cstr_of_not_mem {p : List Char} (h : NUL ∉ p) : cstr p = p := by
  unfold cstr
  rw [List.takeWhile_eq_self_iff]
  intro x hx
  have : x ≠ NUL := fun hxe => h (hxe ▸ hx)
  simpa using this

theorem strlen_of_not_mem {p : List Char} (h : NUL ∉ p) : strlen p = p.length := by
  unfold strlen
  rw [cstr_of_not_mem h]

theorem peek_eq_iff {l : List Char} {c : Char} (hc : c ≠ NUL) :
    peek l = c ↔ ∃ l1, l = c :: l1 := by
  cases l with
  | nil =>
    simp only [peek, List.headD_nil]
    constructor
    · intro h
      exact absurd h.symm hc
    · rintro ⟨l1, h⟩
      exact absurd h (by simp)
  | cons a l =>
    simp only [peek, List.headD_cons]
    constructor
    · intro h
      exact ⟨l, by rw [h]⟩
    · rintro ⟨l1, h⟩
      exact (List.cons.inj h).1

/-- Against a NUL-free string of length `n`, `strncmp(l, t, n)` is 0 exactly
when `l` starts with `t`. -/
theorem strncmp_eq_zero_iff (t : List Char) (ht : NUL ∉ t) :
    ∀ l : List Char, strncmp l t t.length = 0 ↔ t <+: l := by
  induction t with
  | nil =>
    intro l
    simp [strncmp]
  | cons c t ih =>
    intro l
    have hc : c ≠ NUL := fun h => ht (by simp [h])
    have ht1 : NUL ∉ t := fun h => ht (by simp [h])
    simp only [List.length_cons, strncmp]
    cases l with
    | nil =>
      have hne : peek [] ≠ peek (c :: t) := by
        simp only [peek, List.headD_nil, List.headD_cons]
        exact fun h => hc h.symm
      rw [if_pos hne]
      constructor
      · intro h
        exact absurd h (toNat_sub_ne_zero hne)
      · intro h
        exact absurd h (by simp)
    | cons a l =>
      by_cases hac : a = c
      · subst hac
        have heq : ¬ peek (a :: l) ≠ peek (a :: t) := by simp [peek]
        have hnn : ¬ peek (a :: l) = NUL := by simpa [peek] using hc
        rw [if_neg heq, if_neg hnn]
        simp only [List.tail_cons]
        rw [ih ht1 l, List.prefix_cons_inj]
      · have hne : peek (a :: l) ≠ peek (c :: t) := by simpa [peek] using hac
        rw [if_pos hne]
        constructor
        · intro h
          exact absurd h (toNat_sub_ne_zero hne)
        · intro h
          rw [List.cons_prefix_cons] at h
          exact absurd h.1.symm hac

/-- Against a NUL-free string, `strcmp(r, c)` is 0 exactly when the C string
at `r` is `c`. -/
theorem strcmp_eq_zero_iff (r : List Char) :
    ∀ c : List Char, NUL ∉ c → (strcmp r c = 0 ↔ cstr r = c) := by
  induction r with
  | nil =>
    intro c hc
    cases c with
    | nil => simp [strcmp, peek, cstr, NUL]
    | cons a c =>
      have ha : a ≠ NUL := fun h => hc (by simp [h])
      simp only [strcmp, peek, List.headD_cons, cstr, List.takeWhile_nil]
      constructor
      · intro h
        exfalso
        have h1 : (NUL.toNat : Int) - a.toNat ≠ 0 := toNat_sub_ne_zero (Ne.symm ha)
        apply h1
        have : NUL.toNat = 0 := by decide
        rw [this]
        simpa using h
      · intro h
        exact absurd h (by simp)
  | cons x r ih =>
    intro c hc
    simp only [strcmp]
    cases c with
    | nil =>
      simp only [peek, List.headD_nil]
      by_cases hx : x = NUL
      · subst hx
        simp [cstr]
      · rw [if_pos hx]
        constructor
        · intro h
          exact absurd h (toNat_sub_ne_zero hx)
        · intro h
          exfalso
          simp [cstr, List.takeWhile_cons, hx] at h
    | cons a c =>
      have ha : a ≠ NUL := fun h => hc (by simp [h])
      have hc1 : NUL ∉ c := fun h => hc (by simp [h])
      simp only [peek, List.headD_cons, List.tail_cons]
      by_cases hxa : x = a
      · subst hxa
        rw [if_neg (by simp), if_neg ha, ih c hc1]
        simp [cstr, List.takeWhile_cons, ha]
      · rw [if_pos hxa]
        constructor
        · intro h
          exact absurd h (toNat_sub_ne_zero hxa)
        · intro h
          exfalso
          by_cases hx : x = NUL
          · subst hx
            simp [cstr, List.takeWhile_cons] at h
          · simp [cstr, List.takeWhile_cons, hx] at h
            exact hxa h.1

/-! ## Facts about the codec -/

theorem toDigitsCore_hex (f : Nat) : ∀ (n : Nat) (acc : List Char),
    (∀ c ∈ acc, c ∈ "0123456789abcdef".toList) →
    ∀ c ∈ Nat.toDigitsCore 16 f n acc, c ∈ "0123456789abcdef".toList := by
  induction f with
  | zero =>
    intro n acc hacc c hc
    simpa [Nat.toDigitsCore] using hacc c hc
  | succ f ih =>
    intro n acc hacc c hc
    have hd : Nat.digitChar (n % 16) ∈ "0123456789abcdef".toList := by
      have hlt : n % 16 < 16 := Nat.mod_lt _ (by decide)
      generalize n % 16 = m at hlt
      interval_cases m <;> decide
    have hacc1 : ∀ c ∈ Nat.digitChar (n % 16) :: acc, c ∈ "0123456789abcdef".toList := by
      intro c hc
      rcases List.mem_cons.mp hc with h | h
      · rw [h]
        exact hd
      · exact hacc c h
    simp only [Nat.toDigitsCore] at hc
    split at hc
    · exact hacc1 c hc
    · exact ih _ _ hacc1 c hc

theorem fmt_llx_hex (n : Nat) : ∀ c ∈ fmt_llx n, c ∈ "0123456789abcdef".toList := by
  intro c hc
  exact toDigitsCore_hex (n + 1) n [] (by simp) c hc

theorem fmt_llx_length {n : Nat} (h : n < 2 ^ 32) : (fmt_llx n).length ≤ 8 := by
  unfold fmt_llx Nat.toDigits
  exact Nat.toDigitsCore_length 16 (by decide) (n + 1) n 8 (by simpa using h) (by decide)

theorem fresh_id_hex (e : Env) : ∀ c ∈ fresh_id e, c ∈ "0123456789abcdef".toList :=
  fmt_llx_hex _

theorem fresh_id_no_nul (e : Env) : NUL ∉ fresh_id e := by
  intro h
  exact absurd (fresh_id_hex e _ h) (by decide)

theorem fresh_id_no_bar (e : Env) : '|' ∉ fresh_id e := by
  intro h
  exact absurd (fresh_id_hex e _ h) (by decide)

theorem nextid_eq (e : Env) (s : State) :
    nextid e s = .done (fresh_id e) { s with id := fresh_id e } := by
  have hlen : (fmt_llx (e.arc4random % 2 ^ 32)).length ≤ 8 :=
    fmt_llx_length (Nat.mod_lt _ (by decide))
  have hnot : ¬ 64 ≤ (fmt_llx (e.arc4random % 2 ^ 32)).length := by omega
  simp only [nextid, fresh_id]
  rw [if_neg hnot]

theorem service_name_kind (k : table_service) : ∃ nm, service_name k.toInt = some nm := by
  cases k <;> simp [service_name, table_service.toInt]

theorem kind_ne_minus_one (k : table_service) : k.toInt ≠ -1 := by
  cases k <;> decide

/-- For one of the nine kinds `send_request` returns; it sets `id` to the fresh
id, leaves the mask and the unread input alone, and has written to the child. -/
theorem send_request_kind (e : Env) (type : List Char) (k : table_service)
    (param : Option (List Char)) (s : State) :
    ∃ s1, send_request e type k.toInt param s
        = .done (if e.fflush_ok then 0 else -1) s1
      ∧ s1.id = fresh_id e ∧ s1.rx = s.rx ∧ s1.services = s.services
      ∧ s.tx <+: s1.tx ∧ s1.tx ≠ s.tx := by
  obtain ⟨nm, hnm⟩ := service_name_kind k
  simp only [send_request, if_pos (kind_ne_minus_one k), hnm, nextid_eq]
  cases param <;> cases e.fflush_ok <;>
    exact ⟨_, rfl, rfl, rfl, rfl, by simp [State.write, State.count_request],
      by simp [State.write, State.count_request]⟩

/-- The same for the request without service of the update operation. -/
theorem send_request_update (e : Env) (type : List Char)
    (param : Option (List Char)) (s : State) :
    ∃ s1, send_request e type (-1) param s
        = .done (if e.fflush_ok then 0 else -1) s1
      ∧ s1.id = fresh_id e ∧ s1.rx = s.rx ∧ s1.services = s.services
      ∧ s.tx <+: s1.tx ∧ s1.tx ≠ s.tx := by
  simp only [send_request, nextid_eq]
  cases e.fflush_ok <;>
    exact ⟨_, rfl, rfl, rfl, rfl, by simp [State.write, State.count_request],
      by simp [State.write, State.count_request]⟩

/-- Whatever the service argument, `send_request` either ends the process or
returns with the fresh id in `id` and the unread input untouched. -/
theorem send_request_any (e : Env) (type : List Char) (service : Int)
    (param : Option (List Char)) (s : State) :
    send_request e type service param s = .fatal ∨
    ∃ rc s1, send_request e type service param s = .done rc s1
      ∧ s1.id = fresh_id e ∧ s1.rx = s.rx := by
  simp only [send_request, nextid_eq]
  by_cases h : service = -1
  · right
    subst h
    cases e.fflush_ok <;> exact ⟨_, _, rfl, rfl, rfl⟩
  · rw [if_pos h]
    cases hs : service_name service with
    | none => left; rfl
    | some nm =>
      right
      cases param <;> cases e.fflush_ok <;> exact ⟨_, _, rfl, rfl, rfl⟩

/-- What `parse_reply` computes once a line has been read: the line must start
with `type|id|`, and the payload is what follows. -/
theorem parse_reply_eq (t : List Char) (s : State) (raw rest : List Char)
    (ht : NUL ∉ t) (hi : NUL ∉ s.id) (h : getline s.rx = some (raw, rest)) :
    parse_reply t s
      = .done (payload_after (t ++ '|' :: (s.id ++ ['|'])) (chomp raw))
          { s with line := chomp raw, rx := rest } := by
  have hbar : ('|' : Char) ≠ NUL := by decide
  simp only [parse_reply, h, strlen_of_not_mem ht, strlen_of_not_mem hi]
  generalize chomp raw = X
  by_cases h1 : t <+: X
  · obtain ⟨X1, rfl⟩ := h1
    rw [if_neg (by rw [not_not, strncmp_eq_zero_iff t ht]; exact List.prefix_append _ _)]
    rw [List.drop_left]
    by_cases h2 : peek X1 = '|'
    · obtain ⟨X2, rfl⟩ := (peek_eq_iff hbar).mp h2
      rw [if_neg (by rw [not_not]; exact h2)]
      simp only [List.drop_succ_cons, List.drop_zero]
      by_cases h3 : s.id <+: X2
      · obtain ⟨X3, rfl⟩ := h3
        rw [if_neg (by rw [not_not, strncmp_eq_zero_iff _ hi]; exact List.prefix_append _ _)]
        rw [List.drop_left]
        by_cases h4 : peek X3 = '|'
        · obtain ⟨X4, rfl⟩ := (peek_eq_iff hbar).mp h4
          rw [if_neg (by rw [not_not]; exact h4)]
          have hp : (t ++ '|' :: (s.id ++ ['|'])) <+: (t ++ '|' :: (s.id ++ '|' :: X4)) := by
            refine ⟨X4, ?_⟩
            simp
          have hd : List.drop (t ++ '|' :: (s.id ++ ['|'])).length
              (t ++ '|' :: (s.id ++ '|' :: X4)) = X4 := by
            have : t ++ '|' :: (s.id ++ '|' :: X4) = (t ++ '|' :: (s.id ++ ['|'])) ++ X4 := by
              simp
            rw [this, List.drop_left]
          simp only [payload_after, if_pos hp, hd, List.drop_succ_cons, List.drop_zero]
        · rw [if_pos h4]
          have hp : ¬ (t ++ '|' :: (s.id ++ ['|'])) <+: (t ++ '|' :: (s.id ++ X3)) := by
            rw [List.prefix_append_right_inj, List.prefix_cons_inj,
              List.prefix_append_right_inj]
            intro hpre
            obtain ⟨X4, rfl⟩ := hpre
            exact h4 (by simp [peek])
          simp only [payload_after, if_neg hp]
      · rw [if_pos (by rw [ne_eq, strncmp_eq_zero_iff _ hi]; exact h3)]
        have hp : ¬ (t ++ '|' :: (s.id ++ ['|'])) <+: (t ++ '|' :: X2) := by
          rw [List.prefix_append_right_inj, List.prefix_cons_inj]
          intro hpre
          exact h3 ((List.prefix_append _ _).trans hpre)
        simp only [payload_after, if_neg hp]
    · rw [if_pos h2]
      have hp : ¬ (t ++ '|' :: (s.id ++ ['|'])) <+: (t ++ X1) := by
        rw [List.prefix_append_right_inj]
        intro hpre
        obtain ⟨X2, rfl⟩ := hpre
        exact h2 (by simp [peek])
      simp only [payload_after, if_neg hp]
  · rw [if_pos (by rw [ne_eq, strncmp_eq_zero_iff t ht]; exact h1)]
    have hp : ¬ (t ++ '|' :: (s.id ++ ['|'])) <+: X := by
      intro hpre
      exact h1 ((List.prefix_append _ _).trans hpre)
    simp only [payload_after, if_neg hp]

theorem payload_after_reply (t i p : List Char) :
    payload_after (t ++ '|' :: (i ++ ['|'])) (reply_line t i p) = some p := by
  have h : reply_line t i p = (t ++ '|' :: (i ++ ['|'])) ++ p := by
    simp [reply_line]
  have hp : (t ++ '|' :: (i ++ ['|'])) <+: reply_line t i p := ⟨p, h.symm⟩
  simp only [payload_after, if_pos hp]
  rw [h, List.drop_left]

theorem prefix_iff_reply (t i l : List Char) :
    (t ++ '|' :: (i ++ ['|'])) <+: l ↔ ∃ p, l = reply_line t i p := by
  constructor
  · rintro ⟨p, hp⟩
    exact ⟨p, by rw [← hp]; simp [reply_line]⟩
  · rintro ⟨p, hp⟩
    exact ⟨p, by rw [hp]; simp [reply_line]⟩

/-- After a request, a line `type|id|payload` carrying the fresh id is accepted
and its payload handed to the caller. -/
theorem parse_reply_accept (e : Env) (t : List Char) (s1 : State)
    (raw rest p : List Char) (ht : NUL ∉ t) (hid : s1.id = fresh_id e)
    (hl : getline s1.rx = some (raw, rest))
    (hr : chomp raw = reply_line t (fresh_id e) p) :
    parse_reply t s1 = .done (some p) { s1 with line := chomp raw, rx := rest } := by
  have hi : NUL ∉ s1.id := by rw [hid]; exact fresh_id_no_nul e
  rw [parse_reply_eq t s1 raw rest ht hi hl, hid, hr, payload_after_reply]

/-- After a request, `parse_reply` ends the process or returns NULL when no
line starting with `type|id|` can be read. -/
theorem parse_reply_reject (e : Env) (t : List Char) (s1 : State)
    (ht : NUL ∉ t) (hid : s1.id = fresh_id e)
    (h : ∀ raw rest, getline s1.rx = some (raw, rest) →
      ¬ (t ++ '|' :: (fresh_id e ++ ['|'])) <+: chomp raw) :
    parse_reply t s1 = .fatal ∨ ∃ s2, parse_reply t s1 = .done none s2 := by
  cases hg : getline s1.rx with
  | none =>
    left
    simp only [parse_reply, hg]
  | some pr =>
    obtain ⟨raw, rest⟩ := pr
    right
    have hi : NUL ∉ s1.id := by rw [hid]; exact fresh_id_no_nul e
    refine ⟨{ s1 with line := chomp raw, rx := rest }, ?_⟩
    rw [parse_reply_eq t s1 raw rest ht hi hg, hid]
    simp only [payload_after, if_neg (h raw rest hg)]

/-! ## The handlers on an accepted reply -/

theorem update_decode (e : Env) (s : State) (raw rest p : List Char)
    (hf : e.fflush_ok = true) (hl : getline s.rx = some (raw, rest))
    (hr : chomp raw = reply_line "update-result".toList (fresh_id e) p) :
    ∃ s2, table_procexec_update e s
        = (if strcmp p "ok".toList = 0 then .done 1 s2 else .done 0 s2)
      ∧ s2.services = s.services ∧ s2.rx = rest ∧ s.tx <+: s2.tx ∧ s2.tx ≠ s.tx := by
  obtain ⟨s1, hs, hid, hrx, hsv, htx1, htx2⟩ :=
    send_request_update e "update".toList none s
  rw [← hrx] at hl
  have hp := parse_reply_accept e "update-result".toList s1 raw rest p (by decide) hid hl hr
  refine ⟨{ s1 with line := chomp raw, rx := rest }, ?_, hsv, rfl, htx1, htx2⟩
  simp only [table_procexec_update, hs, hf, if_true, hp]
  rfl

theorem check_decode (e : Env) (k : table_service) (key : List Char) (s : State)
    (raw rest p : List Char) (hk : Int.land s.services k.toInt ≠ 0)
    (hf : e.fflush_ok = true) (hl : getline s.rx = some (raw, rest))
    (hr : chomp raw = reply_line "check-result".toList (fresh_id e) p) :
    ∃ s2, table_procexec_check e k.toInt key s
        = (if strcmp p "found".toList = 0 then .done 1 s2 else .done (-1) s2)
      ∧ s2.services = s.services ∧ s2.rx = rest ∧ s.tx <+: s2.tx ∧ s2.tx ≠ s.tx := by
  obtain ⟨s1, hs, hid, hrx, hsv, htx1, htx2⟩ :=
    send_request_kind e "check".toList k (some key) s
  rw [← hrx] at hl
  have hp := parse_reply_accept e "check-result".toList s1 raw rest p (by decide) hid hl hr
  refine ⟨{ s1 with line := chomp raw, rx := rest }, ?_, hsv, rfl, htx1, htx2⟩
  simp only [table_procexec_check, if_neg hk, hs, hf, if_true, hp]
  rfl

theorem lookup_decode (e : Env) (k : table_service) (key dst : List Char) (sz : Nat)
    (s : State) (raw rest p : List Char) (hk : Int.land s.services k.toInt ≠ 0)
    (hf : e.fflush_ok = true) (hl : getline s.rx = some (raw, rest))
    (hr : chomp raw = reply_line "lookup-result".toList (fresh_id e) p) :
    ∃ s2, table_procexec_lookup e k.toInt key dst sz s
        = (if strncmp p "found|".toList 6 = 0 then
             (if sz ≤ (strlcpy dst (p.drop 6) sz).2
              then .done (-1, (strlcpy dst (p.drop 6) sz).1) s2
              else .done (1, (strlcpy dst (p.drop 6) sz).1) s2)
           else if strcmp p "not-found".toList = 0 then .done (0, dst) s2
           else .done (-1, dst) s2)
      ∧ s2.services = s.services ∧ s2.rx = rest ∧ s.tx <+: s2.tx ∧ s2.tx ≠ s.tx := by
  obtain ⟨s1, hs, hid, hrx, hsv, htx1, htx2⟩ :=
    send_request_kind e "lookup".toList k (some key) s
  rw [← hrx] at hl
  have hp := parse_reply_accept e "lookup-result".toList s1 raw rest p (by decide) hid hl hr
  refine ⟨{ s1 with line := chomp raw, rx := rest }, ?_, hsv, rfl, htx1, htx2⟩
  simp only [table_procexec_lookup, if_neg hk, hs, hf, if_true, hp]
  rfl

theorem fetch_decode (e : Env) (k : table_service) (dst : List Char) (sz : Nat)
    (junk : List Char) (s : State) (raw rest p : List Char)
    (hk : Int.land s.services k.toInt ≠ 0)
    (hf : e.fflush_ok = true) (hl : getline s.rx = some (raw, rest))
    (hr : chomp raw = reply_line "fetch-result".toList (fresh_id e) p) :
    ∃ s2, table_procexec_fetch e k.toInt dst sz junk s
        = (if strcmp p "not-found".toList = 0 then .done (0, dst) s2
           else if strcmp p "error".toList = 0 then .done (-1, dst) s2
           else if strncmp p "found|".toList 6 ≠ 0 then .fatal
           else if sz ≤ (strlcpy dst junk sz).2
             then .done (-1, (strlcpy dst junk sz).1) s2
             else .done (1, (strlcpy dst junk sz).1) s2)
      ∧ s2.services = s.services ∧ s2.rx = rest ∧ s.tx <+: s2.tx ∧ s2.tx ≠ s.tx := by
  obtain ⟨s1, hs, hid, hrx, hsv, htx1, htx2⟩ :=
    send_request_kind e "fetch".toList k none s
  rw [← hrx] at hl
  have hp := parse_reply_accept e "fetch-result".toList s1 raw rest p (by decide) hid hl hr
  refine ⟨{ s1 with line := chomp raw, rx := rest }, ?_, hsv, rfl, htx1, htx2⟩
  simp only [table_procexec_fetch, if_neg hk, hs, hf, if_true, hp]
  rfl

/-! ## The handlers on a rejected reply -/

theorem update_fatal_of_null (e : Env) (s : State) (rc : Int) (s1 : State)
    (hs : send_request e "update".toList (-1) none s = .done rc s1)
    (hp : parse_reply "update-result".toList s1 = .fatal
      ∨ ∃ s2, parse_reply "update-result".toList s1 = .done none s2) :
    table_procexec_update e s = .fatal := by
  simp only [table_procexec_update, hs]
  split
  · rfl
  · rcases hp with hp | ⟨s2, hp⟩ <;> simp only [hp]

theorem check_fatal_of_null (e : Env) (service : Int) (key : List Char) (s : State)
    (rc : Int) (s1 : State) (hk : Int.land s.services service ≠ 0)
    (hs : send_request e "check".toList service (some key) s = .done rc s1)
    (hp : parse_reply "check-result".toList s1 = .fatal
      ∨ ∃ s2, parse_reply "check-result".toList s1 = .done none s2) :
    table_procexec_check e service key s = .fatal := by
  simp only [table_procexec_check, if_neg hk, hs]
  split
  · rfl
  · rcases hp with hp | ⟨s2, hp⟩ <;> simp only [hp]

theorem lookup_fatal_of_null (e : Env) (service : Int) (key dst : List Char) (sz : Nat)
    (s : State) (rc : Int) (s1 : State) (hk : Int.land s.services service ≠ 0)
    (hs : send_request e "lookup".toList service (some key) s = .done rc s1)
    (hp : parse_reply "lookup-result".toList s1 = .fatal
      ∨ ∃ s2, parse_reply "lookup-result".toList s1 = .done none s2) :
    table_procexec_lookup e service key dst sz s = .fatal := by
  simp only [table_procexec_lookup, if_neg hk, hs]
  split
  · rfl
  · rcases hp with hp | ⟨s2, hp⟩ <;> simp only [hp]

theorem fetch_fatal_of_null (e : Env) (service : Int) (dst : List Char) (sz : Nat)
    (junk : List Char) (s : State) (rc : Int) (s1 : State)
    (hk : Int.land s.services service ≠ 0)
    (hs : send_request e "fetch".toList service none s = .done rc s1)
    (hp : parse_reply "fetch-result".toList s1 = .fatal
      ∨ ∃ s2, parse_reply "fetch-result".toList s1 = .done none s2) :
    table_procexec_fetch e service dst sz junk s = .fatal := by
  simp only [table_procexec_fetch, if_neg hk, hs]
  split
  · rfl
  · rcases hp with hp | ⟨s2, hp⟩ <;> simp only [hp]

/-- Two strings that end at the same delimiter, which neither contains, are
equal. -/
theorem eq_of_append_cons_eq {c : Char} :
    ∀ (a b x y : List Char), c ∉ a → c ∉ b → a ++ c :: x = b ++ c :: y → a = b := by
  intro a
  induction a with
  | nil =>
    intro b x y _ hb h
    cases b with
    | nil => rfl
    | cons d b =>
      simp only [List.nil_append, List.cons_append, List.cons.injEq] at h
      exact absurd h.1 (fun hcd => hb (by simp [hcd]))
  | cons d a ih =>
    intro b x y ha hb h
    cases b with
    | nil =>
      simp only [List.nil_append, List.cons_append, List.cons.injEq] at h
      exact absurd h.1.symm (fun hcd => ha (by simp [hcd]))
    | cons d1 b =>
      simp only [List.cons_append, List.cons.injEq] at h
      have ha1 : c ∉ a := fun hm => ha (by simp [hm])
      have hb1 : c ∉ b := fun hm => hb (by simp [hm])
      rw [h.1, ih b x y ha1 hb1 h.2]

/-- A line `type|j|payload` whose id field `j` is not the expected id does not
start with `type|id|`. -/
theorem not_prefix_of_id_ne (t i j p : List Char) (hi : '|' ∉ i) (hj : '|' ∉ j)
    (hne : j ≠ i) : ¬ (t ++ '|' :: (i ++ ['|'])) <+: reply_line t j p := by
  rintro ⟨q, hq⟩
  apply hne
  have h1 : t ++ ('|' :: (i ++ '|' :: q)) = t ++ ('|' :: (j ++ '|' :: p)) := by
    simpa [reply_line] using hq
  have h2 := List.append_cancel_left h1
  simp only [List.cons.injEq, true_and] at h2
  exact (eq_of_append_cons_eq i j q p hi hj h2).symm

theorem update_fatal_of_no_match (e : Env) (s : State)
    (h : ∀ raw rest, getline s.rx = some (raw, rest) →
      ¬ ("update-result".toList ++ '|' :: (fresh_id e ++ ['|'])) <+: chomp raw) :
    table_procexec_update e s = .fatal := by
  obtain ⟨s1, hs, hid, hrx, -⟩ := send_request_update e "update".toList none s
  rw [← hrx] at h
  exact update_fatal_of_null e s _ s1 hs
    (parse_reply_reject e _ s1 (by decide) hid h)

theorem check_fatal_of_no_match (e : Env) (service : Int) (key : List Char) (s : State)
    (hk : Int.land s.services service ≠ 0)
    (h : ∀ raw rest, getline s.rx = some (raw, rest) →
      ¬ ("check-result".toList ++ '|' :: (fresh_id e ++ ['|'])) <+: chomp raw) :
    table_procexec_check e service key s = .fatal := by
  rcases send_request_any e "check".toList service (some key) s with hs | ⟨rc, s1, hs, hid, hrx⟩
  · simp only [table_procexec_check, if_neg hk, hs]
  · rw [← hrx] at h
    exact check_fatal_of_null e service key s rc s1 hk hs
      (parse_reply_reject e _ s1 (by decide) hid h)

theorem lookup_fatal_of_no_match (e : Env) (service : Int) (key dst : List Char)
    (sz : Nat) (s : State) (hk : Int.land s.services service ≠ 0)
    (h : ∀ raw rest, getline s.rx = some (raw, rest) →
      ¬ ("lookup-result".toList ++ '|' :: (fresh_id e ++ ['|'])) <+: chomp raw) :
    table_procexec_lookup e service key dst sz s = .fatal := by
  rcases send_request_any e "lookup".toList service (some key) s with hs | ⟨rc, s1, hs, hid, hrx⟩
  · simp only [table_procexec_lookup, if_neg hk, hs]
  · rw [← hrx] at h
    exact lookup_fatal_of_null e service key dst sz s rc s1 hk hs
      (parse_reply_reject e _ s1 (by decide) hid h)

theorem fetch_fatal_of_no_match (e : Env) (service : Int) (dst : List Char)
    (sz : Nat) (junk : List Char) (s : State) (hk : Int.land s.services service ≠ 0)
    (h : ∀ raw rest, getline s.rx = some (raw, rest) →
      ¬ ("fetch-result".toList ++ '|' :: (fresh_id e ++ ['|'])) <+: chomp raw) :
    table_procexec_fetch e service dst sz junk s = .fatal := by
  rcases send_request_any e "fetch".toList service none s with hs | ⟨rc, s1, hs, hid, hrx⟩
  · simp only [table_procexec_fetch, if_neg hk, hs]
  · rw [← hrx] at h
    exact fetch_fatal_of_null e service dst sz junk s rc s1 hk hs
      (parse_reply_reject e _ s1 (by decide) hid h)

theorem chomp_cases (raw : List Char) : raw = chomp raw ∨ raw = chomp raw ++ ['\n'] := by
  unfold chomp
  split
  · right
    rename_i h
    exact (List.dropLast_append_getLast? _ h).symm
  · left
    rfl

/-! ## The reply parser (C1, C2) -/

/-- C1: for every expected type `t` and current id (both C strings) and every
line read from the child, `parse_reply` returns with the line consumed; it
accepts exactly when the line, with at most one trailing line feed removed,
starts with `t`, `|`, the id, `|`; the pointer it returns addresses exactly the
bytes after that second `|`; and each of the four callers ends the process
when `parse_reply` does not hand back a payload. -/
theorem parse_reply_accepts_iff (t : List Char) (s : State) (raw rest : List Char)
    (ht : NUL ∉ t) (hi : NUL ∉ s.id) (hl : getline s.rx = some (raw, rest)) :
    (raw = chomp raw ∨ raw = chomp raw ++ ['\n'])
    ∧ (∃ r, parse_reply t s = .done r { s with line := chomp raw, rx := rest }
        ∧ (r ≠ none ↔ (t ++ '|' :: (s.id ++ ['|'])) <+: chomp raw)
        ∧ ∀ p, r = some p ↔ chomp raw = t ++ '|' :: (s.id ++ '|' :: p))
    ∧ (∀ e s0 rc s1, send_request e "update".toList (-1) none s0 = .done rc s1 →
        (parse_reply "update-result".toList s1 = .fatal
          ∨ ∃ s2, parse_reply "update-result".toList s1 = .done none s2) →
        table_procexec_update e s0 = .fatal)
    ∧ (∀ e service key s0 rc s1, Int.land s0.services service ≠ 0 →
        send_request e "check".toList service (some key) s0 = .done rc s1 →
        (parse_reply "check-result".toList s1 = .fatal
          ∨ ∃ s2, parse_reply "check-result".toList s1 = .done none s2) →
        table_procexec_check e service key s0 = .fatal)
    ∧ (∀ e service key dst sz s0 rc s1, Int.land s0.services service ≠ 0 →
        send_request e "lookup".toList service (some key) s0 = .done rc s1 →
        (parse_reply "lookup-result".toList s1 = .fatal
          ∨ ∃ s2, parse_reply "lookup-result".toList s1 = .done none s2) →
        table_procexec_lookup e service key dst sz s0 = .fatal)
    ∧ (∀ e service dst sz k s0 rc s1, Int.land s0.services service ≠ 0 →
        send_request e "fetch".toList service none s0 = .done rc s1 →
        (parse_reply "fetch-result".toList s1 = .fatal
          ∨ ∃ s2, parse_reply "fetch-result".toList s1 = .done none s2) →
        table_procexec_fetch e service dst sz k s0 = .fatal) := by
  refine ⟨chomp_cases raw, ⟨_, parse_reply_eq t s raw rest ht hi hl, ?_, ?_⟩, ?_, ?_, ?_, ?_⟩
  · unfold payload_after
    split <;> simp_all
  · intro p
    unfold payload_after
    constructor
    · intro h
      split at h
      · rename_i hp
        have h1 := List.prefix_iff_eq_append.mp hp
        rw [Option.some.inj h] at h1
        rw [← h1]
        simp
      · exact absurd h (by simp)
    · intro h
      have h2 := payload_after_reply t s.id p
      unfold payload_after reply_line at h2
      rw [h]
      exact h2
  · intro e s0 rc s1 hs hp
    exact update_fatal_of_null e s0 rc s1 hs hp
  · intro e service key s0 rc s1 hk hs hp
    exact check_fatal_of_null e service key s0 rc s1 hk hs hp
  · intro e service key dst sz s0 rc s1 hk hs hp
    exact lookup_fatal_of_null e service key dst sz s0 rc s1 hk hs hp
  · intro e service dst sz k s0 rc s1 hk hs hp
    exact fetch_fatal_of_null e service dst sz k s0 rc s1 hk hs hp

/-- C1, at the line `lookup-result|1f|found|a|b`: accepted for the id `1f`, and
the payload keeps its own `|`. -/
theorem parse_reply_accepts_iff_witness :
    NUL ∉ "lookup-result".toList
    ∧ getline "lookup-result|1f|found|a|b\nrest".toList
        = some ("lookup-result|1f|found|a|b\n".toList, "rest".toList)
    ∧ parse_reply "lookup-result".toList
        { services := 1, id := "1f".toList, line := [],
          rx := "lookup-result|1f|found|a|b\nrest".toList, tx := [] }
      = .done (some "found|a|b".toList)
        { services := 1, id := "1f".toList,
          line := "lookup-result|1f|found|a|b".toList, rx := "rest".toList, tx := [] } :=
  ⟨by decide, by decide,
    match (parse_reply_accepts_iff "lookup-result".toList
        { services := 1, id := "1f".toList, line := [],
          rx := "lookup-result|1f|found|a|b\nrest".toList, tx := [] }
        "lookup-result|1f|found|a|b\n".toList "rest".toList
        (by decide) (by decide) (by decide)).2.1 with
    | ⟨_, h1, _, h3⟩ => h1.trans (by rw [(h3 "found|a|b".toList).mpr (by decide)]; rfl)⟩

/-- C2: when `i` is the id that `nextid` has just produced, a reply line
`t|j|p` whose id field `j` (free of `|`) differs from `i` is never accepted:
`parse_reply` returns NULL for every type `t`, and each of the four operations
ends the process on such a line of its own result type.  Proper prefixes and
proper extensions of `i` are among the `j` covered. -/
theorem mismatched_id_rejected (e : Env) (s0 s : State) (i j p : List Char)
    (hn : nextid e s0 = .done i s) (hj : '|' ∉ j) (hne : j ≠ i) :
    (∀ t raw rest, NUL ∉ t → getline s.rx = some (raw, rest) →
        chomp raw = reply_line t j p →
        parse_reply t s = .done none { s with line := chomp raw, rx := rest })
    ∧ (∀ st raw rest, getline st.rx = some (raw, rest) →
        chomp raw = reply_line "update-result".toList j p →
        table_procexec_update e st = .fatal)
    ∧ (∀ st service key raw rest, Int.land st.services service ≠ 0 →
        getline st.rx = some (raw, rest) →
        chomp raw = reply_line "check-result".toList j p →
        table_procexec_check e service key st = .fatal)
    ∧ (∀ st service key dst sz raw rest, Int.land st.services service ≠ 0 →
        getline st.rx = some (raw, rest) →
        chomp raw = reply_line "lookup-result".toList j p →
        table_procexec_lookup e service key dst sz st = .fatal)
    ∧ (∀ st service dst sz k raw rest, Int.land st.services service ≠ 0 →
        getline st.rx = some (raw, rest) →
        chomp raw = reply_line "fetch-result".toList j p →
        table_procexec_fetch e service dst sz k st = .fatal) := by
  rw [nextid_eq] at hn
  have hi : i = fresh_id e := by
    injection hn with h1 _
    exact h1.symm
  have hsid : s.id = fresh_id e := by
    injection hn with _ h2
    rw [← h2]
  subst hi
  have hbar := fresh_id_no_bar e
  have key_fact : ∀ (t : List Char) (st : State) (raw rest : List Char),
      getline st.rx = some (raw, rest) → chomp raw = reply_line t j p →
      ∀ raw1 rest1, getline st.rx = some (raw1, rest1) →
        ¬ (t ++ '|' :: (fresh_id e ++ ['|'])) <+: chomp raw1 := by
    intro t st raw rest hl hr raw1 rest1 hl1
    rw [hl] at hl1
    injection hl1 with h3
    injection h3 with h4 _
    rw [← h4, hr]
    exact not_prefix_of_id_ne t (fresh_id e) j p hbar hj hne
  refine ⟨?_, ?_, ?_, ?_, ?_⟩
  · intro t raw rest ht hl hr
    have hnul : NUL ∉ s.id := by rw [hsid]; exact fresh_id_no_nul e
    rw [parse_reply_eq t s raw rest ht hnul hl, hsid]
    have hnp := key_fact t s raw rest hl hr raw rest hl
    simp only [payload_after, if_neg hnp]
  · intro st raw rest hl hr
    exact update_fatal_of_no_match e st (key_fact _ st raw rest hl hr)
  · intro st service key raw rest hk hl hr
    exact check_fatal_of_no_match e service key st hk (key_fact _ st raw rest hl hr)
  · intro st service key dst sz raw rest hk hl hr
    exact lookup_fatal_of_no_match e service key dst sz st hk (key_fact _ st raw rest hl hr)
  · intro st service dst sz k raw rest hk hl hr
    exact fetch_fatal_of_no_match e service dst sz k st hk (key_fact _ st raw rest hl hr)

/-- C2, with the outstanding id `1f` and a reply carrying its proper prefix
`1`: the check operation ends the process. -/
theorem mismatched_id_rejected_witness :
    nextid { tv_sec := 1700000000, tv_usec := 42, table_name := "aliases".toList,
             arc4random := 31, fflush_ok := true }
        { services := 1, id := [], line := [], rx := "check-result|1|found\n".toList,
          tx := [] }
      = .done "1f".toList
        { services := 1, id := "1f".toList, line := [],
          rx := "check-result|1|found\n".toList, tx := [] }
    ∧ '|' ∉ "1".toList ∧ "1".toList ≠ "1f".toList
    ∧ table_procexec_check
        { tv_sec := 1700000000, tv_usec := 42, table_name := "aliases".toList,
          arc4random := 31, fflush_ok := true }
        table_service.K_ALIAS.toInt "root".toList
        { services := 1, id := [], line := [], rx := "check-result|1|found\n".toList,
          tx := [] }
      = .fatal :=
  ⟨by decide, by decide, by decide,
    (mismatched_id_rejected
      { tv_sec := 1700000000, tv_usec := 42, table_name := "aliases".toList,
        arc4random := 31, fflush_ok := true }
      { services := 1, id := [], line := [], rx := "check-result|1|found\n".toList,
        tx := [] }
      { services := 1, id := "1f".toList, line := [],
        rx := "check-result|1|found\n".toList, tx := [] }
      "1f".toList "1".toList "found".toList
      (by decide) (by decide) (by decide)).2.2.1
      { services := 1, id := [], line := [], rx := "check-result|1|found\n".toList,
        tx := [] }
      table_service.K_ALIAS.toInt "root".toList
      "check-result|1|found\n".toList [] (by decide) (by decide) (by decide)⟩

/-! ## Lookup (C3, C4) -/

theorem strlcpy_of_not_mem (dst v : List Char) (sz : Nat) (hv : NUL ∉ v) :
    strlcpy dst v sz = (if sz = 0 then dst else v.take (sz - 1), v.length) := by
  simp only [strlcpy, cstr_of_not_mem hv, strlen_of_not_mem hv]

theorem strncmp_found_iff (p : List Char) :
    strncmp p "found|".toList 6 = 0 ↔ "found|".toList <+: p :=
  strncmp_eq_zero_iff "found|".toList (by decide) p

theorem cstr_append_of_not_mem (a b : List Char) (ha : NUL ∉ a) :
    cstr (a ++ b) = a ++ cstr b := by
  induction a with
  | nil => rfl
  | cons c a ih =>
    have hc : c ≠ NUL := fun h => ha (by simp [h])
    have ha1 : NUL ∉ a := fun h => ha (by simp [h])
    have ih1 := ih ha1
    unfold cstr at ih1 ⊢
    simp [List.takeWhile_cons, hc, ih1]

theorem cstr_nul_cons (b : List Char) : cstr (NUL :: b) = [] := by
  simp [cstr, List.takeWhile_cons]

theorem not_found_prefix_of_cstr {p c : List Char} (hc : cstr p = c)
    (hne : ¬ "found|".toList <+: c) : ¬ "found|".toList <+: p := by
  rintro ⟨q, hq⟩
  apply hne
  rw [← hc, ← hq, cstr_append_of_not_mem _ _ (by decide)]
  exact List.prefix_append _ _

/-- C3 fails on the code: the reply `lookup-result|1f|found|ab`, NUL, `cd`
carries a value of five bytes, yet with a destination of four bytes the lookup
returns 1 and `dst` holds `ab`. -/
theorem lookup_value_nul_cut :
    ("ab".toList ++ NUL :: "cd".toList).length = 5
    ∧ (table_procexec_lookup
        { tv_sec := 1700000000, tv_usec := 42, table_name := "aliases".toList,
          arc4random := 31, fflush_ok := true }
        table_service.K_ALIAS.toInt "bob".toList [] 4
        { services := 3, id := [], line := [],
          rx := "lookup-result|1f|found|".toList ++ ("ab".toList ++ NUL :: "cd".toList)
            ++ "\n".toList,
          tx := [] }).val?
      = some (1, "ab".toList) := by
  constructor <;> decide

/-- C3, amended: for a registered kind, a lookup whose reply is
`lookup-result|<id>|found|v` with the request's id, whatever the bytes of `v`
(none at all, `|`, NUL), returns 1 with `dst` holding the bytes of `v` before
its first NUL when these are fewer than `sz`, and returns -1 (the process goes
on) when they are `sz` or more.  When `v` holds no NUL these bytes are `v`
itself. -/
theorem lookup_found_value (e : Env) (k : table_service) (key dst : List Char)
    (sz : Nat) (s : State) (raw rest v : List Char)
    (hk : Int.land s.services k.toInt ≠ 0) (hf : e.fflush_ok = true)
    (hl : getline s.rx = some (raw, rest))
    (hr : chomp raw
      = reply_line "lookup-result".toList (fresh_id e) ("found|".toList ++ v)) :
    ((cstr v).length < sz → ∃ s2, table_procexec_lookup e k.toInt key dst sz s
        = .done (1, cstr v) s2 ∧ s2.services = s.services ∧ s2.rx = rest)
    ∧ (sz ≤ (cstr v).length → ∃ d s2, table_procexec_lookup e k.toInt key dst sz s
        = .done (-1, d) s2 ∧ s2.services = s.services ∧ s2.rx = rest)
    ∧ (NUL ∉ v → cstr v = v) := by
  obtain ⟨s2, h, hsv, hrx, -⟩ := lookup_decode e k key dst sz s raw rest _ hk hf hl hr
  have hfound : strncmp ("found|".toList ++ v) "found|".toList 6 = 0 :=
    (strncmp_found_iff _).mpr (List.prefix_append _ _)
  have hdrop : List.drop 6 ("found|".toList ++ v) = v := by
    have h6 : ("found|".toList).length = 6 := by decide
    rw [← h6, List.drop_left]
  rw [if_pos hfound, hdrop] at h
  simp only [strlcpy, strlen] at h
  refine ⟨?_, ?_, cstr_of_not_mem⟩
  · intro hlt
    refine ⟨s2, ?_, hsv, hrx⟩
    rw [h, if_neg (by simpa using hlt)]
    have hz : sz ≠ 0 := by omega
    have htake : List.take (sz - 1) (cstr v) = cstr v := List.take_of_length_le (by omega)
    simp only [if_neg hz, htake]
  · intro hge
    exact ⟨_, s2, by rw [h, if_pos hge], hsv, hrx⟩

/-- C3 amended, at the reply `lookup-result|1f|found|bob@example.com` and a
destination of 64 bytes: success with the value `bob@example.com`. -/
theorem lookup_found_value_witness :
    Int.land 3 table_service.K_ALIAS.toInt ≠ 0
    ∧ getline "lookup-result|1f|found|bob@example.com\n".toList
        = some ("lookup-result|1f|found|bob@example.com\n".toList, [])
    ∧ (table_procexec_lookup
        { tv_sec := 1700000000, tv_usec := 42, table_name := "aliases".toList,
          arc4random := 31, fflush_ok := true }
        table_service.K_ALIAS.toInt "bob".toList [] 64
        { services := 3, id := [], line := [],
          rx := "lookup-result|1f|found|bob@example.com\n".toList, tx := [] }).val?
      = some (1, "bob@example.com".toList) :=
  ⟨by decide, by decide,
    match (lookup_found_value
        { tv_sec := 1700000000, tv_usec := 42, table_name := "aliases".toList,
          arc4random := 31, fflush_ok := true }
        table_service.K_ALIAS "bob".toList [] 64
        { services := 3, id := [], line := [],
          rx := "lookup-result|1f|found|bob@example.com\n".toList, tx := [] }
        "lookup-result|1f|found|bob@example.com\n".toList [] "bob@example.com".toList
        (by decide) rfl (by decide) (by decide)).1 (by decide) with
    | ⟨_, h, _⟩ => by rw [h]; rfl⟩

/-- C4 fails on the code: the payload `not-found`, NUL, `x` is not `not-found`
and does not start with `found|`, yet the lookup returns 0 (absent), not -1. -/
theorem lookup_not_found_nul_absent :
    "not-found".toList ++ NUL :: "x".toList ≠ "not-found".toList
    ∧ ¬ "found|".toList <+: "not-found".toList ++ NUL :: "x".toList
    ∧ (table_procexec_lookup
        { tv_sec := 1700000000, tv_usec := 42, table_name := "aliases".toList,
          arc4random := 31, fflush_ok := true }
        table_service.K_ALIAS.toInt "bob".toList "old".toList 64
        { services := 3, id := [], line := [],
          rx := "lookup-result|1f|".toList ++ ("not-found".toList ++ NUL :: "x".toList)
            ++ "\n".toList,
          tx := [] }).val?
      = some (0, "old".toList) := by
  refine ⟨by decide, by decide, by decide⟩

/-- C4, amended: for registered kinds, a lookup whose reply payload, read up to
its first NUL, is `not-found` returns 0 (absent); one whose payload does not
start with `found|` and, read up to its first NUL, is `error` or anything else
but `not-found`, returns -1 (failure) and the process goes on; and the two
result codes differ. -/
theorem lookup_absent_vs_failure (e e1 : Env) (k k1 : table_service)
    (key key1 dst dst1 : List Char) (sz sz1 : Nat) (s s1 : State)
    (raw rest raw1 rest1 p0 p : List Char)
    (hk : Int.land s.services k.toInt ≠ 0) (hf : e.fflush_ok = true)
    (hl : getline s.rx = some (raw, rest))
    (hr : chomp raw = reply_line "lookup-result".toList (fresh_id e) p0)
    (hp0 : cstr p0 = "not-found".toList)
    (hk1 : Int.land s1.services k1.toInt ≠ 0) (hf1 : e1.fflush_ok = true)
    (hl1 : getline s1.rx = some (raw1, rest1))
    (hr1 : chomp raw1 = reply_line "lookup-result".toList (fresh_id e1) p)
    (hp1 : cstr p ≠ "not-found".toList) (hp2 : ¬ "found|".toList <+: p) :
    ∃ c c1 s2 s3,
      table_procexec_lookup e k.toInt key dst sz s = .done (c, dst) s2
      ∧ table_procexec_lookup e1 k1.toInt key1 dst1 sz1 s1 = .done (c1, dst1) s3
      ∧ c = 0 ∧ c1 = -1 ∧ c ≠ c1 := by
  obtain ⟨s2, h, -⟩ := lookup_decode e k key dst sz s raw rest _ hk hf hl hr
  obtain ⟨s3, h1, -⟩ := lookup_decode e1 k1 key1 dst1 sz1 s1 raw1 rest1 p hk1 hf1 hl1 hr1
  have hnf : ¬ strncmp p0 "found|".toList 6 = 0 := by
    rw [strncmp_found_iff]
    exact not_found_prefix_of_cstr hp0 (by decide)
  have hnf2 : strcmp p0 "not-found".toList = 0 :=
    (strcmp_eq_zero_iff p0 _ (by decide)).mpr hp0
  rw [if_neg hnf, if_pos hnf2] at h
  have hq : ¬ strncmp p "found|".toList 6 = 0 := by
    rw [strncmp_found_iff]
    exact hp2
  have hq2 : ¬ strcmp p "not-found".toList = 0 := by
    rw [strcmp_eq_zero_iff p _ (by decide)]
    exact hp1
  rw [if_neg hq, if_neg hq2] at h1
  exact ⟨0, -1, s2, s3, h, h1, rfl, rfl, by decide⟩

/-- C4 amended, at the replies `lookup-result|1f|not-found` and
`lookup-result|1f|error`: the first lookup returns 0, the second -1. -/
theorem lookup_absent_vs_failure_witness :
    (table_procexec_lookup
        { tv_sec := 1700000000, tv_usec := 42, table_name := "aliases".toList,
          arc4random := 31, fflush_ok := true }
        table_service.K_ALIAS.toInt "bob".toList "old".toList 64
        { services := 3, id := [], line := [],
          rx := "lookup-result|1f|not-found\n".toList, tx := [] }).val?
      = some (0, "old".toList)
    ∧ (table_procexec_lookup
        { tv_sec := 1700000000, tv_usec := 42, table_name := "aliases".toList,
          arc4random := 31, fflush_ok := true }
        table_service.K_DOMAIN.toInt "bob".toList "old".toList 64
        { services := 3, id := [], line := [],
          rx := "lookup-result|1f|error\n".toList, tx := [] }).val?
      = some (-1, "old".toList) :=
  match lookup_absent_vs_failure
      { tv_sec := 1700000000, tv_usec := 42, table_name := "aliases".toList,
        arc4random := 31, fflush_ok := true }
      { tv_sec := 1700000000, tv_usec := 42, table_name := "aliases".toList,
        arc4random := 31, fflush_ok := true }
      table_service.K_ALIAS table_service.K_DOMAIN
      "bob".toList "bob".toList "old".toList "old".toList 64 64
      { services := 3, id := [], line := [],
        rx := "lookup-result|1f|not-found\n".toList, tx := [] }
      { services := 3, id := [], line := [],
        rx := "lookup-result|1f|error\n".toList, tx := [] }
      "lookup-result|1f|not-found\n".toList [] "lookup-result|1f|error\n".toList []
      "not-found".toList "error".toList
      (by decide) rfl (by decide) (by decide) (by decide) (by decide) rfl (by decide)
      (by decide) (by decide) (by decide) with
  | ⟨_, _, _, _, h, h1, hc, hc1, _⟩ =>
    ⟨by rw [h, hc]; rfl, by rw [h1, hc1]; rfl⟩

/-! ## Fetch (C5, C6) -/

/-- On a reply `fetch-result|<id>|found|v` the value `v` plays no part: the
outcome is that of copying the string addressed by the unassigned pointer. -/
theorem fetch_found_copies_junk (e : Env) (k : table_service) (dst : List Char)
    (sz : Nat) (junk : List Char) (s : State) (raw rest v : List Char)
    (hk : Int.land s.services k.toInt ≠ 0) (hf : e.fflush_ok = true)
    (hv : NUL ∉ v) (hl : getline s.rx = some (raw, rest))
    (hr : chomp raw
      = reply_line "fetch-result".toList (fresh_id e) ("found|".toList ++ v)) :
    ∃ s2, table_procexec_fetch e k.toInt dst sz junk s
      = (if sz ≤ strlen junk then .done (-1, (strlcpy dst junk sz).1) s2
         else .done (1, (strlcpy dst junk sz).1) s2) := by
  obtain ⟨s2, h, -⟩ := fetch_decode e k dst sz junk s raw rest _ hk hf hl hr
  refine ⟨s2, ?_⟩
  have hc : cstr ("found|".toList ++ v) = "found|".toList ++ v :=
    cstr_of_not_mem (by
      intro hm
      rcases List.mem_append.mp hm with h1 | h1
      · exact absurd h1 (by decide)
      · exact hv h1)
  have h1 : ¬ strcmp ("found|".toList ++ v) "not-found".toList = 0 := by
    rw [strcmp_eq_zero_iff _ _ (by decide), hc]
    intro heq
    have := congrArg List.head? heq
    simp at this
  have h2 : ¬ strcmp ("found|".toList ++ v) "error".toList = 0 := by
    rw [strcmp_eq_zero_iff _ _ (by decide), hc]
    intro heq
    have := congrArg List.head? heq
    simp at this
  have h3 : ¬ strncmp ("found|".toList ++ v) "found|".toList 6 ≠ 0 := by
    rw [not_not, strncmp_found_iff]
    exact List.prefix_append _ _
  rw [if_neg h1, if_neg h2, if_neg h3] at h
  exact h

/-- C5 fails on the code: with the reply `fetch-result|1f|found|bob@example.com`
and a destination of 64 bytes, the fetch returns 1 but `dst` holds the string
the unassigned pointer `k` addresses (here `junk`), not `bob@example.com`; the
lookup on the same payload stores `bob@example.com`. -/
theorem fetch_found_value_lost :
    (table_procexec_fetch
        { tv_sec := 1700000000, tv_usec := 42, table_name := "aliases".toList,
          arc4random := 31, fflush_ok := true }
        table_service.K_ALIAS.toInt [] 64 "junk".toList
        { services := 3, id := [], line := [],
          rx := "fetch-result|1f|found|bob@example.com\n".toList, tx := [] }).val?
      = some (1, "junk".toList)
    ∧ (table_procexec_lookup
        { tv_sec := 1700000000, tv_usec := 42, table_name := "aliases".toList,
          arc4random := 31, fflush_ok := true }
        table_service.K_ALIAS.toInt "bob".toList [] 64
        { services := 3, id := [], line := [],
          rx := "lookup-result|1f|found|bob@example.com\n".toList, tx := [] }).val?
      = some (1, "bob@example.com".toList) := by
  constructor <;> decide

/-- C6 fails on the code: the payload `error`, NUL, `x` is neither `not-found`
nor `error` and does not start with `found|`, yet the fetch does not end the
process: it returns -1. -/
theorem fetch_error_nul_returns :
    "error".toList ++ NUL :: "x".toList ≠ "not-found".toList
    ∧ "error".toList ++ NUL :: "x".toList ≠ "error".toList
    ∧ ¬ "found|".toList <+: "error".toList ++ NUL :: "x".toList
    ∧ (table_procexec_fetch
        { tv_sec := 1700000000, tv_usec := 42, table_name := "aliases".toList,
          arc4random := 31, fflush_ok := true }
        table_service.K_DOMAIN.toInt "old".toList 64 "junk".toList
        { services := 3, id := [], line := [],
          rx := "fetch-result|1f|".toList ++ ("error".toList ++ NUL :: "x".toList)
            ++ "\n".toList,
          tx := [] }).val?
      = some (-1, "old".toList) := by
  refine ⟨by decide, by decide, by decide, by decide⟩

/-- C6, amended: for a registered kind, a fetch whose reply payload, read up to
its first NUL, is `not-found` returns 0 and one whose payload so read is `error`
returns -1; on any other payload that does not start with `found|` the fetch
ends the process, while a lookup given that payload returns -1 and the process
goes on. -/
theorem fetch_malformed_fatal (e : Env) (k : table_service) (key dst : List Char)
    (sz : Nat) (junk : List Char) (p : List Char)
    (hf : e.fflush_ok = true) (hp1 : cstr p ≠ "not-found".toList)
    (hp2 : cstr p ≠ "error".toList) (hp3 : ¬ "found|".toList <+: p) :
    (∀ s raw rest p0, Int.land s.services k.toInt ≠ 0 → getline s.rx = some (raw, rest) →
        chomp raw = reply_line "fetch-result".toList (fresh_id e) p0 →
        cstr p0 = "not-found".toList →
        ∃ s2, table_procexec_fetch e k.toInt dst sz junk s = .done (0, dst) s2)
    ∧ (∀ s raw rest p0, Int.land s.services k.toInt ≠ 0 → getline s.rx = some (raw, rest) →
        chomp raw = reply_line "fetch-result".toList (fresh_id e) p0 →
        cstr p0 = "error".toList →
        ∃ s2, table_procexec_fetch e k.toInt dst sz junk s = .done (-1, dst) s2)
    ∧ (∀ s raw rest, Int.land s.services k.toInt ≠ 0 → getline s.rx = some (raw, rest) →
        chomp raw = reply_line "fetch-result".toList (fresh_id e) p →
        table_procexec_fetch e k.toInt dst sz junk s = .fatal)
    ∧ (∀ s raw rest, Int.land s.services k.toInt ≠ 0 → getline s.rx = some (raw, rest) →
        chomp raw = reply_line "lookup-result".toList (fresh_id e) p →
        ∃ s2, table_procexec_lookup e k.toInt key dst sz s = .done (-1, dst) s2) := by
  have hq1 : ¬ strcmp p "not-found".toList = 0 := by
    rw [strcmp_eq_zero_iff p _ (by decide)]
    exact hp1
  have hq2 : ¬ strcmp p "error".toList = 0 := by
    rw [strcmp_eq_zero_iff p _ (by decide)]
    exact hp2
  have hq3 : strncmp p "found|".toList 6 ≠ 0 := by
    rw [ne_eq, strncmp_found_iff]
    exact hp3
  refine ⟨?_, ?_, ?_, ?_⟩
  · intro s raw rest p0 hk hl hr hp0
    obtain ⟨s2, h, -⟩ := fetch_decode e k dst sz junk s raw rest _ hk hf hl hr
    have h1 : strcmp p0 "not-found".toList = 0 :=
      (strcmp_eq_zero_iff p0 _ (by decide)).mpr hp0
    rw [if_pos h1] at h
    exact ⟨s2, h⟩
  · intro s raw rest p0 hk hl hr hp0
    obtain ⟨s2, h, -⟩ := fetch_decode e k dst sz junk s raw rest _ hk hf hl hr
    have h1 : ¬ strcmp p0 "not-found".toList = 0 := by
      rw [strcmp_eq_zero_iff p0 _ (by decide), hp0]
      decide
    have h2 : strcmp p0 "error".toList = 0 :=
      (strcmp_eq_zero_iff p0 _ (by decide)).mpr hp0
    rw [if_neg h1, if_pos h2] at h
    exact ⟨s2, h⟩
  · intro s raw rest hk hl hr
    obtain ⟨s2, h, -⟩ := fetch_decode e k dst sz junk s raw rest _ hk hf hl hr
    rw [if_neg hq1, if_neg hq2, if_pos hq3] at h
    exact h
  · intro s raw rest hk hl hr
    obtain ⟨s2, h, -⟩ := lookup_decode e k key dst sz s raw rest _ hk hf hl hr
    rw [if_neg hq3, if_neg hq1] at h
    exact ⟨s2, h⟩

/-- C6 amended, at the payload `bogus`: the fetch ends the process, the lookup
returns -1. -/
theorem fetch_malformed_fatal_witness :
    cstr "bogus".toList ≠ "not-found".toList ∧ cstr "bogus".toList ≠ "error".toList
    ∧ ¬ "found|".toList <+: "bogus".toList
    ∧ table_procexec_fetch
        { tv_sec := 1700000000, tv_usec := 42, table_name := "aliases".toList,
          arc4random := 31, fflush_ok := true }
        table_service.K_DOMAIN.toInt "old".toList 64 "junk".toList
        { services := 3, id := [], line := [],
          rx := "fetch-result|1f|bogus\n".toList, tx := [] }
      = .fatal
    ∧ (table_procexec_lookup
        { tv_sec := 1700000000, tv_usec := 42, table_name := "aliases".toList,
          arc4random := 31, fflush_ok := true }
        table_service.K_DOMAIN.toInt "bob".toList "old".toList 64
        { services := 3, id := [], line := [],
          rx := "lookup-result|1f|bogus\n".toList, tx := [] }).val?
      = some (-1, "old".toList) :=
  ⟨by decide, by decide, by decide,
    (fetch_malformed_fatal
      { tv_sec := 1700000000, tv_usec := 42, table_name := "aliases".toList,
        arc4random := 31, fflush_ok := true }
      table_service.K_DOMAIN "bob".toList "old".toList 64 "junk".toList "bogus".toList
      rfl (by decide) (by decide) (by decide)).2.2.1
      { services := 3, id := [], line := [],
        rx := "fetch-result|1f|bogus\n".toList, tx := [] }
      "fetch-result|1f|bogus\n".toList [] (by decide) (by decide) (by decide),
    match (fetch_malformed_fatal
      { tv_sec := 1700000000, tv_usec := 42, table_name := "aliases".toList,
        arc4random := 31, fflush_ok := true }
      table_service.K_DOMAIN "bob".toList "old".toList 64 "junk".toList "bogus".toList
      rfl (by decide) (by decide) (by decide)).2.2.2
      { services := 3, id := [], line := [],
        rx := "lookup-result|1f|bogus\n".toList, tx := [] }
      "lookup-result|1f|bogus\n".toList [] (by decide) (by decide) (by decide) with
    | ⟨_, h⟩ => by rw [h]; rfl⟩

/-! ## Shared facts about the short circuit and the check decoding -/

theorem check_unregistered (e : Env) (service : Int) (key : List Char) (s : State)
    (h : Int.land s.services service = 0) :
    table_procexec_check e service key s = .done (-1) s := by
  simp only [table_procexec_check, if_pos h]

theorem lookup_unregistered (e : Env) (service : Int) (key dst : List Char)
    (sz : Nat) (s : State) (h : Int.land s.services service = 0) :
    table_procexec_lookup e service key dst sz s = .done (-1, dst) s := by
  simp only [table_procexec_lookup, if_pos h]

theorem fetch_unregistered (e : Env) (service : Int) (dst : List Char)
    (sz : Nat) (junk : List Char) (s : State) (h : Int.land s.services service = 0) :
    table_procexec_fetch e service dst sz junk s = .done (-1, dst) s := by
  simp only [table_procexec_fetch, if_pos h]

theorem strcmp_cstring_iff (p c : List Char) (hp : NUL ∉ p) (hc : NUL ∉ c) :
    strcmp p c = 0 ↔ p = c := by
  rw [strcmp_eq_zero_iff p c hc, cstr_of_not_mem hp]

/-! ## Check and update (C7, C8) -/

/-- C7 fails on the code: the payload `found`, NUL, `bogus` is not `found`, yet
the check returns 1 (exists). -/
theorem check_found_nul_exists :
    "found".toList ++ NUL :: "bogus".toList ≠ "found".toList
    ∧ (table_procexec_check
        { tv_sec := 1700000000, tv_usec := 42, table_name := "aliases".toList,
          arc4random := 31, fflush_ok := true }
        table_service.K_ALIAS.toInt "root".toList
        { services := 3, id := [], line := [],
          rx := "check-result|1f|".toList ++ ("found".toList ++ NUL :: "bogus".toList)
            ++ "\n".toList,
          tx := [] }).val?
      = some 1 := by
  refine ⟨by decide, by decide⟩

/-- C7, amended: for a registered kind, a check returns 1 (exists) when its
reply payload, read up to its first NUL, is `found`, and for every other
payload (`error`, `bogus`, `not-found`, `found|x`, the empty payload, ...) it
returns -1 and the process goes on.  When the payload holds no NUL, it is
itself what is compared with `found`. -/
theorem check_found_or_not (e : Env) (k : table_service) (key : List Char)
    (s : State) (raw rest p : List Char)
    (hk : Int.land s.services k.toInt ≠ 0) (hf : e.fflush_ok = true)
    (hl : getline s.rx = some (raw, rest))
    (hr : chomp raw = reply_line "check-result".toList (fresh_id e) p) :
    (∃ s2, table_procexec_check e k.toInt key s
        = .done (if cstr p = "found".toList then 1 else -1) s2
      ∧ s2.services = s.services ∧ s2.rx = rest)
    ∧ (NUL ∉ p → cstr p = p) := by
  obtain ⟨s2, h, hsv, hrx, -⟩ := check_decode e k key s raw rest p hk hf hl hr
  refine ⟨⟨s2, ?_, hsv, hrx⟩, cstr_of_not_mem⟩
  rw [h]
  have hiff : strcmp p "found".toList = 0 ↔ cstr p = "found".toList :=
    strcmp_eq_zero_iff p _ (by decide)
  by_cases hpf : cstr p = "found".toList
  · rw [if_pos (hiff.mpr hpf), if_pos hpf]
  · rw [if_neg (fun hc => hpf (hiff.mp hc)), if_neg hpf]

/-- C7 amended, at the reply `check-result|1f|bogus`: the check returns -1. -/
theorem check_found_or_not_witness :
    Int.land 3 table_service.K_ALIAS.toInt ≠ 0
    ∧ cstr "bogus".toList ≠ "found".toList
    ∧ (table_procexec_check
        { tv_sec := 1700000000, tv_usec := 42, table_name := "aliases".toList,
          arc4random := 31, fflush_ok := true }
        table_service.K_ALIAS.toInt "root".toList
        { services := 3, id := [], line := [],
          rx := "check-result|1f|bogus\n".toList, tx := [] }).val?
      = some (-1) :=
  ⟨by decide, by decide,
    match (check_found_or_not
        { tv_sec := 1700000000, tv_usec := 42, table_name := "aliases".toList,
          arc4random := 31, fflush_ok := true }
        table_service.K_ALIAS "root".toList
        { services := 3, id := [], line := [],
          rx := "check-result|1f|bogus\n".toList, tx := [] }
        "check-result|1f|bogus\n".toList [] "bogus".toList
        (by decide) rfl (by decide) (by decide)).1 with
    | ⟨_, h, _⟩ => by rw [h]; rfl⟩

/-- C8 fails on the code: the payload `ok`, NUL, `nope` is not `ok`, yet the
update returns 1. -/
theorem update_ok_nul_success :
    "ok".toList ++ NUL :: "nope".toList ≠ "ok".toList
    ∧ (table_procexec_update
        { tv_sec := 1700000000, tv_usec := 42, table_name := "aliases".toList,
          arc4random := 31, fflush_ok := true }
        { services := 3, id := [], line := [],
          rx := "update-result|1f|".toList ++ ("ok".toList ++ NUL :: "nope".toList)
            ++ "\n".toList,
          tx := [] }).val?
      = some 1 := by
  refine ⟨by decide, by decide⟩

/-- C8, amended: whatever the service mask `m`, an update whose reply is
`update-result|<id>|p` with the request's id writes its request to the child,
consumes the reply and returns 1 exactly when the payload `p`, read up to its
first NUL, is `ok`, and 0 for `error` and every other payload; the process goes
on and the mask is not consulted or changed.  When the payload holds no NUL,
it is itself what is compared with `ok`. -/
theorem update_ok_iff (e : Env) (s : State) (raw rest p : List Char)
    (hf : e.fflush_ok = true) (hl : getline s.rx = some (raw, rest))
    (hr : chomp raw = reply_line "update-result".toList (fresh_id e) p) :
    (∀ m : Int, ∃ v s2, table_procexec_update e { s with services := m } = .done v s2
      ∧ (v = 1 ↔ cstr p = "ok".toList) ∧ (cstr p ≠ "ok".toList → v = 0)
      ∧ s.tx <+: s2.tx ∧ s2.tx ≠ s.tx ∧ s2.rx = rest ∧ s2.services = m)
    ∧ (NUL ∉ p → cstr p = p) := by
  refine ⟨?_, cstr_of_not_mem⟩
  intro m
  obtain ⟨s2, h, hsv, hrx, htx1, htx2⟩ :=
    update_decode e { s with services := m } raw rest p hf hl hr
  have hiff : strcmp p "ok".toList = 0 ↔ cstr p = "ok".toList :=
    strcmp_eq_zero_iff p _ (by decide)
  by_cases hpo : cstr p = "ok".toList
  · rw [if_pos (hiff.mpr hpo)] at h
    exact ⟨1, s2, h, ⟨fun _ => hpo, fun _ => rfl⟩, fun hne => absurd hpo hne,
      htx1, htx2, hrx, hsv⟩
  · rw [if_neg (fun hc => hpo (hiff.mp hc))] at h
    exact ⟨0, s2, h, ⟨fun h0 => absurd h0 (by decide), fun hc => absurd hc hpo⟩,
      fun _ => rfl, htx1, htx2, hrx, hsv⟩

/-- C8 amended, with an empty mask and the reply `update-result|1f|ok`: the
update returns 1. -/
theorem update_ok_iff_witness :
    getline "update-result|1f|ok\n".toList = some ("update-result|1f|ok\n".toList, [])
    ∧ cstr "ok".toList = "ok".toList
    ∧ (table_procexec_update
        { tv_sec := 1700000000, tv_usec := 42, table_name := "aliases".toList,
          arc4random := 31, fflush_ok := true }
        { services := 0, id := [], line := [],
          rx := "update-result|1f|ok\n".toList, tx := [] }).val?
      = some 1 :=
  ⟨by decide, by decide,
    match (update_ok_iff
        { tv_sec := 1700000000, tv_usec := 42, table_name := "aliases".toList,
          arc4random := 31, fflush_ok := true }
        { services := 7, id := [], line := [],
          rx := "update-result|1f|ok\n".toList, tx := [] }
        "update-result|1f|ok\n".toList [] "ok".toList
        rfl (by decide) (by decide)).1 0 with
    | ⟨_, _, h, hiff, _⟩ => by rw [h, hiff.mpr (by decide)]; rfl⟩

/-! ## Unregistered services (C9, C10) -/

/-- C9: when the flag of the kind is absent from the mask, each of check,
lookup and fetch returns -1 (unsupported) in the very state it was called in:
nothing is written to the child, nothing is read from it, `id` is not renewed,
and `dst` is left as it was. -/
theorem unsupported_short_circuit (e : Env) (k : table_service)
    (key dst : List Char) (sz : Nat) (junk : List Char) (s : State)
    (h : Int.land s.services k.toInt = 0) :
    table_procexec_check e k.toInt key s = .done (-1) s
    ∧ table_procexec_lookup e k.toInt key dst sz s = .done (-1, dst) s
    ∧ table_procexec_fetch e k.toInt dst sz junk s = .done (-1, dst) s := by
  exact ⟨check_unregistered e _ key s h, lookup_unregistered e _ key dst sz s h,
    fetch_unregistered e _ dst sz junk s h⟩

/-- C9, with the mask (alias, domain) and the kind credentials. -/
theorem unsupported_short_circuit_witness :
    Int.land 3 table_service.K_CREDENTIALS.toInt = 0
    ∧ table_procexec_check
        { tv_sec := 1700000000, tv_usec := 42, table_name := "aliases".toList,
          arc4random := 31, fflush_ok := true }
        table_service.K_CREDENTIALS.toInt "root".toList
        { services := 3, id := "a0".toList, line := [],
          rx := "check-result|1f|found\n".toList, tx := "sent".toList }
      = .done (-1)
        { services := 3, id := "a0".toList, line := [],
          rx := "check-result|1f|found\n".toList, tx := "sent".toList } :=
  ⟨by decide,
    (unsupported_short_circuit
      { tv_sec := 1700000000, tv_usec := 42, table_name := "aliases".toList,
        arc4random := 31, fflush_ok := true }
      table_service.K_CREDENTIALS "root".toList [] 0 []
      { services := 3, id := "a0".toList, line := [],
        rx := "check-result|1f|found\n".toList, tx := "sent".toList }
      (by decide)).1⟩

/-- C10 fails for check: with the mask (alias, domain), a check for the
unregistered kind credentials and a check for the registered kind alias that
is answered `check-result|1f|not-found` return the same code, -1. -/
theorem check_unsupported_same_code :
    Int.land 3 table_service.K_CREDENTIALS.toInt = 0
    ∧ Int.land 3 table_service.K_ALIAS.toInt ≠ 0
    ∧ (table_procexec_check
        { tv_sec := 1700000000, tv_usec := 42, table_name := "aliases".toList,
          arc4random := 31, fflush_ok := true }
        table_service.K_CREDENTIALS.toInt "root".toList
        { services := 3, id := [], line := [],
          rx := "check-result|1f|not-found\n".toList, tx := [] }).val?
      = some (-1)
    ∧ (table_procexec_check
        { tv_sec := 1700000000, tv_usec := 42, table_name := "aliases".toList,
          arc4random := 31, fflush_ok := true }
        table_service.K_ALIAS.toInt "root".toList
        { services := 3, id := [], line := [],
          rx := "check-result|1f|not-found\n".toList, tx := [] }).val?
      = some (-1) := by
  refine ⟨by decide, by decide, by decide, by decide⟩

/-- C10, amended: for lookup and fetch the code returned for a kind that is
not registered differs from the code returned when the reply is `not-found`;
for check the kind that is not registered and every reply payload that, read up
to its first NUL, is other than `found` give the same code. -/
theorem unsupported_vs_not_found (e e1 : Env) (k k1 : table_service)
    (key key1 dst dst1 : List Char) (sz sz1 : Nat) (junk junk1 : List Char)
    (s : State) (hun : Int.land s.services k.toInt = 0)
    (hf1 : e1.fflush_ok = true) :
    (∀ s1 raw rest, Int.land s1.services k1.toInt ≠ 0 →
        getline s1.rx = some (raw, rest) →
        chomp raw = reply_line "lookup-result".toList (fresh_id e1) "not-found".toList →
        ∃ c c1 t, table_procexec_lookup e k.toInt key dst sz s = .done (c, dst) s
          ∧ table_procexec_lookup e1 k1.toInt key1 dst1 sz1 s1 = .done (c1, dst1) t
          ∧ c ≠ c1)
    ∧ (∀ s1 raw rest, Int.land s1.services k1.toInt ≠ 0 →
        getline s1.rx = some (raw, rest) →
        chomp raw = reply_line "fetch-result".toList (fresh_id e1) "not-found".toList →
        ∃ c c1 t, table_procexec_fetch e k.toInt dst sz junk s = .done (c, dst) s
          ∧ table_procexec_fetch e1 k1.toInt dst1 sz1 junk1 s1 = .done (c1, dst1) t
          ∧ c ≠ c1)
    ∧ (∀ s1 raw rest p, Int.land s1.services k1.toInt ≠ 0 →
        getline s1.rx = some (raw, rest) →
        chomp raw = reply_line "check-result".toList (fresh_id e1) p →
        cstr p ≠ "found".toList →
        ∃ c t, table_procexec_check e k.toInt key s = .done c s
          ∧ table_procexec_check e1 k1.toInt key1 s1 = .done c t) := by
  have hc := check_unregistered e k.toInt key s hun
  have hlk := lookup_unregistered e k.toInt key dst sz s hun
  have hft := fetch_unregistered e k.toInt dst sz junk s hun
  refine ⟨?_, ?_, ?_⟩
  · intro s1 raw rest hk1 hl hr
    obtain ⟨t, h, -⟩ := lookup_decode e1 k1 key1 dst1 sz1 s1 raw rest _ hk1 hf1 hl hr
    have h1 : ¬ strncmp "not-found".toList "found|".toList 6 = 0 := by decide
    have h2 : strcmp "not-found".toList "not-found".toList = 0 := by decide
    rw [if_neg h1, if_pos h2] at h
    exact ⟨-1, 0, t, hlk, h, by decide⟩
  · intro s1 raw rest hk1 hl hr
    obtain ⟨t, h, -⟩ := fetch_decode e1 k1 dst1 sz1 junk1 s1 raw rest _ hk1 hf1 hl hr
    have h2 : strcmp "not-found".toList "not-found".toList = 0 := by decide
    rw [if_pos h2] at h
    exact ⟨-1, 0, t, hft, h, by decide⟩
  · intro s1 raw rest p hk1 hl hr hpf
    obtain ⟨t, h, -⟩ := check_decode e1 k1 key1 s1 raw rest p hk1 hf1 hl hr
    have hnf : ¬ strcmp p "found".toList = 0 := fun h0 =>
      hpf ((strcmp_eq_zero_iff p _ (by decide)).mp h0)
    rw [if_neg hnf] at h
    exact ⟨-1, t, hc, h⟩

/-- C10 amended, at the mask (alias, domain): a lookup for credentials returns
-1, a lookup for alias answered `not-found` returns 0. -/
theorem unsupported_vs_not_found_witness :
    Int.land 3 table_service.K_CREDENTIALS.toInt = 0
    ∧ (table_procexec_lookup
        { tv_sec := 1700000000, tv_usec := 42, table_name := "aliases".toList,
          arc4random := 31, fflush_ok := true }
        table_service.K_CREDENTIALS.toInt "root".toList [] 64
        { services := 3, id := [], line := [],
          rx := "lookup-result|1f|not-found\n".toList, tx := [] }).val?
      ≠ (table_procexec_lookup
        { tv_sec := 1700000000, tv_usec := 42, table_name := "aliases".toList,
          arc4random := 31, fflush_ok := true }
        table_service.K_ALIAS.toInt "root".toList [] 64
        { services := 3, id := [], line := [],
          rx := "lookup-result|1f|not-found\n".toList, tx := [] }).val? :=
  ⟨by decide,
    match (unsupported_vs_not_found
        { tv_sec := 1700000000, tv_usec := 42, table_name := "aliases".toList,
          arc4random := 31, fflush_ok := true }
        { tv_sec := 1700000000, tv_usec := 42, table_name := "aliases".toList,
          arc4random := 31, fflush_ok := true }
        table_service.K_CREDENTIALS table_service.K_ALIAS
        "root".toList "root".toList [] [] 64 64 [] []
        { services := 3, id := [], line := [],
          rx := "lookup-result|1f|not-found\n".toList, tx := [] }
        (by decide) rfl).1
        { services := 3, id := [], line := [],
          rx := "lookup-result|1f|not-found\n".toList, tx := [] }
        "lookup-result|1f|not-found\n".toList [] (by decide) (by decide) (by decide) with
    | ⟨_, _, _, h, h1, hne⟩ => by
      rw [h, h1]
      intro heq
      simp only [Result.val?, Option.some.injEq, Prod.mk.injEq, and_true] at heq
      exact hne heq⟩

/-! ## The printf conversions of numbers -/

theorem digit_value_digitChar {m : Nat} (h : m < 16) :
    digit_value (Nat.digitChar m) = m := by
  interval_cases m <;> decide

theorem digitChar_ne_zero {m : Nat} (h0 : 0 < m) (h : m < 16) : Nat.digitChar m ≠ '0' := by
  interval_cases m <;> decide

theorem read_base_append (b : Nat) (l1 l2 : List Char) :
    read_base b (l1 ++ l2) = l2.foldl (fun a c => b * a + digit_value c) (read_base b l1) := by
  simp [read_base, List.foldl_append]

/-- The accumulator of `toDigitsCore` is left at the end. -/
theorem toDigitsCore_acc (b : Nat) : ∀ (f n : Nat) (acc : List Char),
    Nat.toDigitsCore b f n acc = Nat.toDigitsCore b f n [] ++ acc := by
  intro f
  induction f with
  | zero =>
    intro n acc
    simp [Nat.toDigitsCore]
  | succ f ih =>
    intro n acc
    simp only [Nat.toDigitsCore]
    split
    · simp
    · rw [ih (n / b) (Nat.digitChar (n % b) :: acc), ih (n / b) [Nat.digitChar (n % b)]]
      simp

/-- With enough fuel the digits of `n` are those of `n / b` followed by the
digit `n % b`. -/
theorem toDigitsCore_step (b f n : Nat) :
    Nat.toDigitsCore b (f + 1) n []
      = (if n / b = 0 then [] else Nat.toDigitsCore b f (n / b) [])
        ++ [Nat.digitChar (n % b)] := by
  simp only [Nat.toDigitsCore]
  split
  · simp
  · rw [toDigitsCore_acc]

theorem read_toDigitsCore (b : Nat) (hb : 2 ≤ b) (hb16 : b ≤ 16) :
    ∀ (f n : Nat), n < f → read_base b (Nat.toDigitsCore b f n []) = n := by
  intro f
  induction f with
  | zero =>
    intro n hn
    omega
  | succ f ih =>
    intro n hn
    have hmod : n % b < 16 := lt_of_lt_of_le (Nat.mod_lt _ (by omega)) hb16
    rw [toDigitsCore_step, read_base_append]
    by_cases h0 : n / b = 0
    · rw [if_pos h0]
      have hlt : n < b := (Nat.div_eq_zero_iff (by omega)).mp h0
      have hn16 : n < 16 := by omega
      simp [read_base, Nat.mod_eq_of_lt hlt, digit_value_digitChar hn16]
    · rw [if_neg h0]
      have hpos : 0 < n := by
        rcases Nat.eq_zero_or_pos n with h | h
        · rw [h] at h0
          simp at h0
        · exact h
      have hdiv : n / b < f := by
        have : n / b < n := Nat.div_lt_self hpos (by omega)
        omega
      rw [ih (n / b) hdiv]
      simp only [List.foldl_cons, List.foldl_nil, digit_value_digitChar hmod]
      exact Nat.div_add_mod n b

theorem toDigitsCore_head (b : Nat) (hb : 2 ≤ b) (hb16 : b ≤ 16) :
    ∀ (f n : Nat), 0 < n → n < f →
      ∃ c t, Nat.toDigitsCore b f n [] = c :: t ∧ c ≠ '0' := by
  intro f
  induction f with
  | zero =>
    intro n _ hn
    omega
  | succ f ih =>
    intro n hpos hn
    rw [toDigitsCore_step]
    by_cases h0 : n / b = 0
    · rw [if_pos h0]
      have hlt : n < b := (Nat.div_eq_zero_iff (by omega)).mp h0
      refine ⟨Nat.digitChar (n % b), [], by simp, ?_⟩
      rw [Nat.mod_eq_of_lt hlt]
      exact digitChar_ne_zero hpos (by omega)
    · rw [if_neg h0]
      have hdiv : n / b < f := by
        have : n / b < n := Nat.div_lt_self hpos (by omega)
        omega
      obtain ⟨c, t, hct, hc⟩ := ih (n / b) (Nat.pos_of_ne_zero h0) hdiv
      exact ⟨c, t ++ [Nat.digitChar (n % b)], by rw [hct]; simp, hc⟩

theorem read_fmt_llx (n : Nat) : read_base 16 (fmt_llx n) = n :=
  read_toDigitsCore 16 (by decide) (by decide) (n + 1) n (Nat.lt_succ_self n)

theorem fmt_llx_head (n : Nat) : (fmt_llx n).head? = some '0' → fmt_llx n = ['0'] := by
  intro h
  rcases Nat.eq_zero_or_pos n with h0 | hpos
  · rw [h0]
    decide
  · obtain ⟨c, t, hct, hc⟩ :=
      toDigitsCore_head 16 (by decide) (by decide) (n + 1) n hpos (Nat.lt_succ_self n)
    have hct1 : fmt_llx n = c :: t := hct
    rw [hct1] at h
    simp only [List.head?_cons, Option.some.injEq] at h
    exact absurd h hc

theorem fmt_llx_ne_nil (n : Nat) : fmt_llx n ≠ [] := by
  intro h
  have h1 := read_fmt_llx n
  rcases Nat.eq_zero_or_pos n with h0 | hpos
  · rw [h0] at h
    exact absurd h (by decide)
  · rw [h] at h1
    simp [read_base] at h1
    omega

/-! ## The correlation id (C19) -/

/-- C19: with `r` the 32-bit value of `arc4random()`, `nextid` returns and
leaves in `id` the lowercase hexadecimal rendering of `r`: 1 to 8 characters,
all among `0`-`9`, `a`-`f` (so no `|` and no line feed), no leading zero except
for the single digit of 0, and read back in base 16 they give `r`; `nextid`
never ends the process. -/
theorem nextid_hex (e : Env) (s : State) :
    ∃ i, nextid e s = .done i { s with id := i }
      ∧ 1 ≤ i.length ∧ i.length ≤ 8
      ∧ (∀ c ∈ i, c ∈ "0123456789abcdef".toList)
      ∧ '|' ∉ i ∧ '\n' ∉ i
      ∧ (i.head? = some '0' → i = ['0'])
      ∧ read_base 16 i = e.arc4random % 2 ^ 32
      ∧ nextid e s ≠ .fatal := by
  have hlt : e.arc4random % 2 ^ 32 < 2 ^ 32 := Nat.mod_lt _ (by decide)
  have hne := fmt_llx_ne_nil (e.arc4random % 2 ^ 32)
  refine ⟨fresh_id e, nextid_eq e s, ?_, fmt_llx_length hlt, fresh_id_hex e,
    fresh_id_no_bar e, ?_, fmt_llx_head _, read_fmt_llx _, ?_⟩
  · cases hf : fresh_id e with
    | nil => exact absurd hf hne
    | cons c t => simp
  · intro h
    exact absurd (fresh_id_hex e _ h) (by decide)
  · rw [nextid_eq]
    exact fun h => by cases h

/-! ## Reading lines -/

theorem getline_length_lt : ∀ (l raw rest : List Char),
    getline l = some (raw, rest) → rest.length < l.length := by
  intro l
  induction l with
  | nil =>
    intro raw rest hg
    simp [getline] at hg
  | cons c cs ih =>
    intro raw rest hg
    simp only [getline] at hg
    split at hg
    · simp only [Option.some.injEq, Prod.mk.injEq] at hg
      rw [← hg.2]
      simp
    · split at hg
      · simp only [Option.some.injEq, Prod.mk.injEq] at hg
        rw [← hg.2]
        simp
      · rename_i l1 r1 hcs
        simp only [Option.some.injEq, Prod.mk.injEq] at hg
        rw [← hg.2]
        have := ih l1 r1 hcs
        simp only [List.length_cons]
        omega

/-- A line that ends with its line feed is read whole, and no further. -/
theorem getline_line : ∀ (l rest : List Char), '\n' ∉ l →
    getline (l ++ '\n' :: rest) = some (l ++ ['\n'], rest) := by
  intro l
  induction l with
  | nil =>
    intro rest _
    simp [getline]
  | cons c cs ih =>
    intro rest h
    have hc : c ≠ '\n' := fun hc => h (by simp [hc])
    have hcs : '\n' ∉ cs := fun hm => h (by simp [hm])
    have ih1 := ih rest hcs
    simp only [List.cons_append, getline, if_neg hc]
    rw [show cs.append ('\n' :: rest) = cs ++ '\n' :: rest from rfl, ih1]

/-- A last line without line feed is read up to the end of file. -/
theorem getline_last : ∀ (l : List Char), l ≠ [] → '\n' ∉ l →
    getline l = some (l, []) := by
  intro l
  induction l with
  | nil =>
    intro h _
    exact absurd rfl h
  | cons c cs ih =>
    intro _ h
    have hc : c ≠ '\n' := fun hc => h (by simp [hc])
    have hcs : '\n' ∉ cs := fun hm => h (by simp [hm])
    simp only [getline, if_neg hc]
    cases cs with
    | nil => simp [getline]
    | cons d ds => rw [ih (by simp) hcs]

theorem chomp_line (l : List Char) : chomp (l ++ ['\n']) = l := by
  simp [chomp]

theorem chomp_last (l : List Char) (h : '\n' ∉ l) : chomp l = l := by
  unfold chomp
  split
  · rename_i hl
    exact absurd (List.mem_of_mem_getLast? hl) h
  · rfl

/-! ## One pass through the registration loop -/

/-- The body of the loop on the line read. -/
theorem register_loop_unfold (s : State) (raw rest : List Char)
    (hg : getline s.rx = some (raw, rest)) :
    register_loop s =
      if strncmp (chomp raw) "register|".toList 9 ≠ 0 then .fatal
      else if strcmp (List.drop 9 (chomp raw)) "ready".toList = 0 then
        .done () { s with line := chomp raw, rx := rest }
      else
        match table_service.ofService? (List.drop 9 (chomp raw)) with
        | some k =>
          register_loop
            { s with services := Int.lor s.services k.toInt, line := chomp raw, rx := rest }
        | none => .fatal := by
  rw [register_loop]
  split
  · rename_i h
    rw [hg] at h
    cases h
  · rename_i raw1 rest1 h
    rw [hg] at h
    simp only [Option.some.injEq, Prod.mk.injEq] at h
    obtain ⟨h1, h2⟩ := h
    subst h1
    subst h2
    dsimp only
    by_cases c0 : strncmp (chomp raw) "register|".toList 9 ≠ 0
    · rw [if_pos c0, if_pos c0]
    rw [if_neg c0, if_neg c0]
    by_cases c1 : strcmp (List.drop 9 (chomp raw)) "ready".toList = 0
    · rw [if_pos c1, if_pos c1]
    rw [if_neg c1, if_neg c1]
    unfold table_service.ofService?
    by_cases d0 : strcmp (List.drop 9 (chomp raw)) "alias".toList = 0
    · rw [if_pos d0, if_pos d0]
    rw [if_neg d0, if_neg d0]
    by_cases d1 : strcmp (List.drop 9 (chomp raw)) "domain".toList = 0
    · rw [if_pos d1, if_pos d1]
    rw [if_neg d1, if_neg d1]
    by_cases d2 : strcmp (List.drop 9 (chomp raw)) "credentials".toList = 0
    · rw [if_pos d2, if_pos d2]
    rw [if_neg d2, if_neg d2]
    by_cases d3 : strcmp (List.drop 9 (chomp raw)) "netaddr".toList = 0
    · rw [if_pos d3, if_pos d3]
    rw [if_neg d3, if_neg d3]
    by_cases d4 : strcmp (List.drop 9 (chomp raw)) "userinfo".toList = 0
    · rw [if_pos d4, if_pos d4]
    rw [if_neg d4, if_neg d4]
    by_cases d5 : strcmp (List.drop 9 (chomp raw)) "source".toList = 0
    · rw [if_pos d5, if_pos d5]
    rw [if_neg d5, if_neg d5]
    by_cases d6 : strcmp (List.drop 9 (chomp raw)) "mailaddr".toList = 0
    · rw [if_pos d6, if_pos d6]
    rw [if_neg d6, if_neg d6]
    by_cases d7 : strcmp (List.drop 9 (chomp raw)) "addrname".toList = 0
    · rw [if_pos d7, if_pos d7]
    rw [if_neg d7, if_neg d7]
    by_cases d8 : strcmp (List.drop 9 (chomp raw)) "mailaddrmap".toList = 0
    · rw [if_pos d8, if_pos d8]
    rw [if_neg d8, if_neg d8]

/-- On a C string the chain of `strcmp` selects the kind the name denotes. -/
theorem ofService?_eq_ofName? (nm : List Char) (hnm : NUL ∉ nm) :
    table_service.ofService? nm = table_service.ofName? nm := by
  unfold table_service.ofService? table_service.ofName?
  by_cases d0 : nm = "alias".toList
  · rw [if_pos ((strcmp_cstring_iff nm _ hnm (by decide)).mpr d0), if_pos d0]
  rw [if_neg (fun h => d0 ((strcmp_cstring_iff nm _ hnm (by decide)).mp h)), if_neg d0]
  by_cases d1 : nm = "domain".toList
  · rw [if_pos ((strcmp_cstring_iff nm _ hnm (by decide)).mpr d1), if_pos d1]
  rw [if_neg (fun h => d1 ((strcmp_cstring_iff nm _ hnm (by decide)).mp h)), if_neg d1]
  by_cases d2 : nm = "credentials".toList
  · rw [if_pos ((strcmp_cstring_iff nm _ hnm (by decide)).mpr d2), if_pos d2]
  rw [if_neg (fun h => d2 ((strcmp_cstring_iff nm _ hnm (by decide)).mp h)), if_neg d2]
  by_cases d3 : nm = "netaddr".toList
  · rw [if_pos ((strcmp_cstring_iff nm _ hnm (by decide)).mpr d3), if_pos d3]
  rw [if_neg (fun h => d3 ((strcmp_cstring_iff nm _ hnm (by decide)).mp h)), if_neg d3]
  by_cases d4 : nm = "userinfo".toList
  · rw [if_pos ((strcmp_cstring_iff nm _ hnm (by decide)).mpr d4), if_pos d4]
  rw [if_neg (fun h => d4 ((strcmp_cstring_iff nm _ hnm (by decide)).mp h)), if_neg d4]
  by_cases d5 : nm = "source".toList
  · rw [if_pos ((strcmp_cstring_iff nm _ hnm (by decide)).mpr d5), if_pos d5]
  rw [if_neg (fun h => d5 ((strcmp_cstring_iff nm _ hnm (by decide)).mp h)), if_neg d5]
  by_cases d6 : nm = "mailaddr".toList
  · rw [if_pos ((strcmp_cstring_iff nm _ hnm (by decide)).mpr d6), if_pos d6]
  rw [if_neg (fun h => d6 ((strcmp_cstring_iff nm _ hnm (by decide)).mp h)), if_neg d6]
  by_cases d7 : nm = "addrname".toList
  · rw [if_pos ((strcmp_cstring_iff nm _ hnm (by decide)).mpr d7), if_pos d7]
  rw [if_neg (fun h => d7 ((strcmp_cstring_iff nm _ hnm (by decide)).mp h)), if_neg d7]
  by_cases d8 : nm = "mailaddrmap".toList
  · rw [if_pos ((strcmp_cstring_iff nm _ hnm (by decide)).mpr d8), if_pos d8]
  rw [if_neg (fun h => d8 ((strcmp_cstring_iff nm _ hnm (by decide)).mp h)), if_neg d8]

theorem register_loop_eof (s : State) (hg : getline s.rx = none) :
    register_loop s = .done () s := by
  rw [register_loop]
  split
  · rfl
  · rename_i raw rest h
    rw [hg] at h
    cases h

/-- A line that does not start with `register|` ends the process. -/
theorem register_loop_bad (s : State) (raw rest : List Char)
    (hg : getline s.rx = some (raw, rest))
    (hbad : ¬ "register|".toList <+: chomp raw) :
    register_loop s = .fatal := by
  have hne : strncmp (chomp raw) "register|".toList 9 ≠ 0 := by
    intro h0
    exact hbad ((strncmp_eq_zero_iff "register|".toList (by decide) _).mp h0)
  rw [register_loop_unfold s raw rest hg, if_pos hne]

/-- A line `register|<name>` whose name is a C string: `ready` leaves the
loop, the name of a kind adds its flag and goes on, any other name ends the
process. -/
theorem register_loop_step (s : State) (raw rest nm : List Char)
    (hg : getline s.rx = some (raw, rest))
    (hl : chomp raw = "register|".toList ++ nm) (hnm : NUL ∉ nm) :
    register_loop s =
      if nm = "ready".toList then .done () { s with line := chomp raw, rx := rest }
      else
        match table_service.ofName? nm with
        | some k =>
          register_loop
            { s with services := Int.lor s.services k.toInt, line := chomp raw, rx := rest }
        | none => .fatal := by
  have hpre : ¬ strncmp (chomp raw) "register|".toList 9 ≠ 0 := by
    rw [not_not, hl]
    exact (strncmp_eq_zero_iff "register|".toList (by decide) _).mpr (List.prefix_append _ _)
  have hdrop : List.drop 9 (chomp raw) = nm := by
    rw [hl]
    have h9 : ("register|".toList).length = 9 := by decide
    rw [← h9, List.drop_left]
  rw [register_loop_unfold s raw rest hg, if_neg hpre, hdrop, ofService?_eq_ofName? nm hnm]
  by_cases hr : nm = "ready".toList
  · rw [if_pos ((strcmp_cstring_iff nm _ hnm (by decide)).mpr hr), if_pos hr]
  · rw [if_neg (fun h => hr ((strcmp_cstring_iff nm _ hnm (by decide)).mp h)), if_neg hr]

/-- Whatever the line, one pass ends the process, leaves the loop at
`register|ready`, or adds the flag of one kind and goes on. -/
theorem register_loop_cases (s : State) (raw rest : List Char)
    (hg : getline s.rx = some (raw, rest)) :
    register_loop s = .fatal
    ∨ register_loop s = .done () { s with line := chomp raw, rx := rest }
    ∨ ∃ k : table_service, register_loop s
        = register_loop
            { s with services := Int.lor s.services k.toInt, line := chomp raw, rx := rest } := by
  rw [register_loop_unfold s raw rest hg]
  by_cases c0 : strncmp (chomp raw) "register|".toList 9 ≠ 0
  · rw [if_pos c0]
    exact Or.inl rfl
  rw [if_neg c0]
  by_cases c1 : strcmp (List.drop 9 (chomp raw)) "ready".toList = 0
  · rw [if_pos c1]
    exact Or.inr (Or.inl rfl)
  rw [if_neg c1]
  cases table_service.ofService? (List.drop 9 (chomp raw)) with
  | none => exact Or.inl rfl
  | some k => exact Or.inr (Or.inr ⟨k, rfl⟩)

theorem ofName?_name (k : table_service) : table_service.ofName? k.name = some k := by
  cases k <;> decide

theorem name_no_nul (k : table_service) : NUL ∉ k.name := by
  cases k <;> decide

theorem name_no_newline (k : table_service) : '\n' ∉ k.name := by
  cases k <;> decide

theorem name_ne_ready (k : table_service) : k.name ≠ "ready".toList := by
  cases k <;> decide

theorem service_name_eq_name (k : table_service) : service_name k.toInt = some k.name := by
  cases k <;> decide

/-! ## The capability mask -/

theorem lor_kind (m : Nat) (k : table_service) :
    Int.lor (m : Int) k.toInt = ((m ||| 2 ^ k.idx : Nat) : Int) := by
  cases k <;> rfl

theorem land_kind (m : Nat) (k : table_service) :
    Int.land (m : Int) k.toInt = ((m &&& 2 ^ k.idx : Nat) : Int) := by
  cases k <;> rfl

theorem idx_inj {k k1 : table_service} (h : k.idx = k1.idx) : k = k1 := by
  cases k <;> cases k1 <;> first | rfl | (exact absurd h (by decide))

theorem idx_lt (k : table_service) : k.idx < 9 := by
  cases k <;> decide

theorem idx_surj {i : Nat} (h : i < 9) : ∃ k : table_service, k.idx = i := by
  interval_cases i
  · exact ⟨.K_ALIAS, rfl⟩
  · exact ⟨.K_DOMAIN, rfl⟩
  · exact ⟨.K_CREDENTIALS, rfl⟩
  · exact ⟨.K_NETADDR, rfl⟩
  · exact ⟨.K_USERINFO, rfl⟩
  · exact ⟨.K_SOURCE, rfl⟩
  · exact ⟨.K_MAILADDR, rfl⟩
  · exact ⟨.K_ADDRNAME, rfl⟩
  · exact ⟨.K_MAILADDRMAP, rfl⟩

/-- A kind is in the mask exactly when its bit is set. -/
theorem land_ne_zero_iff (m : Nat) (k : table_service) :
    Int.land (m : Int) k.toInt ≠ 0 ↔ m.testBit k.idx = true := by
  rw [land_kind, Nat.and_two_pow]
  cases h : m.testBit k.idx <;> simp

theorem foldl_lor_nat (ks : List table_service) : ∀ m : Nat,
    ∃ m1 : Nat, ks.foldl (fun a k => Int.lor a k.toInt) (m : Int) = (m1 : Int)
      ∧ (m < 2 ^ 9 → m1 < 2 ^ 9)
      ∧ ∀ k : table_service, m1.testBit k.idx = true ↔ (m.testBit k.idx = true ∨ k ∈ ks) := by
  induction ks with
  | nil =>
    intro m
    exact ⟨m, rfl, fun h => h, fun k => by simp⟩
  | cons k1 ks ih =>
    intro m
    obtain ⟨m1, h1, hlt, hbits⟩ := ih (m ||| 2 ^ k1.idx)
    refine ⟨m1, ?_, ?_, ?_⟩
    · rw [List.foldl_cons, lor_kind, h1]
    · intro hm
      exact hlt (Nat.or_lt_two_pow hm (Nat.pow_lt_pow_right (by decide) (idx_lt k1)))
    · intro k
      rw [hbits k, Nat.testBit_or, Nat.testBit_two_pow]
      simp only [Bool.or_eq_true, decide_eq_true_eq, List.mem_cons]
      constructor
      · rintro ((h | h) | h)
        · exact Or.inl h
        · exact Or.inr (Or.inl (idx_inj h.symm))
        · exact Or.inr (Or.inr h)
      · rintro (h | h | h)
        · exact Or.inl (Or.inl h)
        · exact Or.inl (Or.inr (by rw [h]))
        · exact Or.inr h

/-- The mask built from a list of kinds holds exactly these kinds. -/
theorem mask_of_iff (ks : List table_service) (k : table_service) :
    Int.land (mask_of ks) k.toInt ≠ 0 ↔ k ∈ ks := by
  obtain ⟨m1, h1, -, hbits⟩ := foldl_lor_nat ks 0
  have h0 : mask_of ks = (m1 : Int) := h1
  rw [h0, land_ne_zero_iff, hbits k]
  simp

/-- A mask below `2 ^ 9` that is not zero holds some kind. -/
theorem exists_kind_of_ne_zero (m : Nat) (hlt : m < 2 ^ 9) (hne : m ≠ 0) :
    ∃ k : table_service, Int.land (m : Int) k.toInt ≠ 0 := by
  obtain ⟨i, hi⟩ := Nat.ne_zero_implies_bit_true hne
  have hi9 : i < 9 := by
    by_contra hge
    have hle : 2 ^ 9 ≤ 2 ^ i := Nat.pow_le_pow_right (by decide) (by omega)
    have := Nat.testBit_lt_two_pow (lt_of_lt_of_le hlt hle)
    rw [this] at hi
    cases hi
  obtain ⟨k, hk⟩ := idx_surj hi9
  exact ⟨k, (land_ne_zero_iff m k).mpr (by rw [hk]; exact hi)⟩

/-! ## The registration loop on whole inputs -/

theorem ofName?_eq_some {nm : List Char} {k : table_service}
    (h : table_service.ofName? nm = some k) : nm = k.name := by
  unfold table_service.ofName? at h
  by_cases d0 : nm = "alias".toList
  · rw [if_pos d0] at h
    cases h
    exact d0
  rw [if_neg d0] at h
  by_cases d1 : nm = "domain".toList
  · rw [if_pos d1] at h
    cases h
    exact d1
  rw [if_neg d1] at h
  by_cases d2 : nm = "credentials".toList
  · rw [if_pos d2] at h
    cases h
    exact d2
  rw [if_neg d2] at h
  by_cases d3 : nm = "netaddr".toList
  · rw [if_pos d3] at h
    cases h
    exact d3
  rw [if_neg d3] at h
  by_cases d4 : nm = "userinfo".toList
  · rw [if_pos d4] at h
    cases h
    exact d4
  rw [if_neg d4] at h
  by_cases d5 : nm = "source".toList
  · rw [if_pos d5] at h
    cases h
    exact d5
  rw [if_neg d5] at h
  by_cases d6 : nm = "mailaddr".toList
  · rw [if_pos d6] at h
    cases h
    exact d6
  rw [if_neg d6] at h
  by_cases d7 : nm = "addrname".toList
  · rw [if_pos d7] at h
    cases h
    exact d7
  rw [if_neg d7] at h
  by_cases d8 : nm = "mailaddrmap".toList
  · rw [if_pos d8] at h
    cases h
    exact d8
  rw [if_neg d8] at h
  cases h

theorem ofName?_eq_none {nm : List Char} (h : ∀ k : table_service, nm ≠ k.name) :
    table_service.ofName? nm = none := by
  cases hk : table_service.ofName? nm with
  | none => rfl
  | some k => exact absurd (ofName?_eq_some hk) (h k)

theorem main_eq (ferror : Bool) (child : List Char) :
    main ferror child =
      match register_loop (loop_entry child) with
      | .fatal => .fatal
      | .done _ s2 =>
        if ferror then .fatal
        else if s2.services = 0 then .fatal
        else .done () s2 := rfl

theorem main_fatal_of_loop (ferror : Bool) (child : List Char)
    (h : register_loop (loop_entry child) = .fatal) : main ferror child = .fatal := by
  rw [main_eq, h]

/-- The lines `register|<name>` of a list of kinds followed by `register|ready`:
the loop adds the flag of each kind and stops after the `ready` line. -/
theorem register_loop_lines (ks : List table_service) : ∀ (s : State) (rest : List Char),
    s.rx = register_lines ks ++ ("register|ready".toList ++ '\n' :: rest) →
    register_loop s = .done ()
      { s with services := ks.foldl (fun m k => Int.lor m k.toInt) s.services,
               line := "register|ready".toList, rx := rest } := by
  induction ks with
  | nil =>
    intro s rest hrx
    have hg : getline s.rx = some ("register|ready".toList ++ ['\n'], rest) := by
      rw [hrx]
      exact getline_line _ rest (by decide)
    rw [register_loop_step s _ rest "ready".toList hg (by rw [chomp_line]; rfl) (by decide),
      if_pos rfl, chomp_line]
    rfl
  | cons k ks ih =>
    intro s rest hrx
    have hnl : '\n' ∉ "register|".toList ++ k.name := by
      intro hm
      rcases List.mem_append.mp hm with h | h
      · exact absurd h (by decide)
      · exact name_no_newline k h
    have hg : getline s.rx = some (("register|".toList ++ k.name) ++ ['\n'],
        register_lines ks ++ ("register|ready".toList ++ '\n' :: rest)) := by
      rw [hrx]
      have := getline_line ("register|".toList ++ k.name)
        (register_lines ks ++ ("register|ready".toList ++ '\n' :: rest)) hnl
      simpa [register_lines] using this
    rw [register_loop_step s _ _ k.name hg (chomp_line _) (name_no_nul k),
      if_neg (name_ne_ready k), ofName?_name]
    simp only []
    rw [ih _ rest rfl]
    simp only [List.foldl_cons]

/-- The same lines without `register|ready`, up to end of file: the loop
returns as well, with the flags of the kinds. -/
theorem register_loop_lines_eof (ks : List table_service) : ∀ (s : State),
    s.rx = register_lines ks →
    ∃ s2, register_loop s = .done () s2
      ∧ s2.services = ks.foldl (fun m k => Int.lor m k.toInt) s.services
      ∧ s2.rx = [] ∧ s2.tx = s.tx := by
  induction ks with
  | nil =>
    intro s hrx
    have hg : getline s.rx = none := by
      rw [hrx]
      rfl
    exact ⟨s, register_loop_eof s hg, rfl, hrx, rfl⟩
  | cons k ks ih =>
    intro s hrx
    have hnl : '\n' ∉ "register|".toList ++ k.name := by
      intro hm
      rcases List.mem_append.mp hm with h | h
      · exact absurd h (by decide)
      · exact name_no_newline k h
    have hg : getline s.rx = some (("register|".toList ++ k.name) ++ ['\n'],
        register_lines ks) := by
      rw [hrx]
      have := getline_line ("register|".toList ++ k.name) (register_lines ks) hnl
      simpa [register_lines] using this
    rw [register_loop_step s _ _ k.name hg (chomp_line _) (name_no_nul k),
      if_neg (name_ne_ready k), ofName?_name]
    simp only []
    obtain ⟨s2, h1, h2, h3, h4⟩ := ih
      { s with services := Int.lor s.services k.toInt,
               line := chomp (("register|".toList ++ k.name) ++ ['\n']),
               rx := register_lines ks } rfl
    exact ⟨s2, h1, by rw [h2]; rfl, h3, h4⟩

theorem land_zero_kind (k : table_service) : Int.land 0 k.toInt = 0 := by
  cases k <;> decide

theorem mask_of_ne_zero {ks : List table_service} (h : ks ≠ []) : mask_of ks ≠ 0 := by
  cases ks with
  | nil => exact absurd rfl h
  | cons k ks =>
    intro h0
    have hk := (mask_of_iff (k :: ks) k).mpr (by simp)
    rw [h0, land_zero_kind] at hk
    exact hk rfl

/-- The handshake on the lines of a non-empty list of kinds and `register|ready`. -/
theorem main_register_lines (ks : List table_service) (rest : List Char) (hks : ks ≠ []) :
    main false (register_lines ks ++ ("register|ready".toList ++ '\n' :: rest))
      = .done ()
        { loop_entry (register_lines ks ++ ("register|ready".toList ++ '\n' :: rest)) with
          services := mask_of ks, line := "register|ready".toList, rx := rest } := by
  rw [main_eq, register_loop_lines ks _ rest rfl]
  have hne : ¬ (List.foldl (fun m k => Int.lor m k.toInt)
      (loop_entry (register_lines ks ++ ("register|ready".toList ++ '\n' :: rest))).services
      ks = 0) := mask_of_ne_zero hks
  simp only [Bool.false_eq_true, if_false, if_neg hne]
  rfl

/-- The chain of `strcmp` selects the kind denoted by the bytes before the
first NUL. -/
theorem ofService?_cstr (b : List Char) :
    table_service.ofService? b = table_service.ofName? (cstr b) := by
  unfold table_service.ofService? table_service.ofName?
  by_cases d0 : cstr b = "alias".toList
  · rw [if_pos ((strcmp_eq_zero_iff b _ (by decide)).mpr d0), if_pos d0]
  rw [if_neg (fun h => d0 ((strcmp_eq_zero_iff b _ (by decide)).mp h)), if_neg d0]
  by_cases d1 : cstr b = "domain".toList
  · rw [if_pos ((strcmp_eq_zero_iff b _ (by decide)).mpr d1), if_pos d1]
  rw [if_neg (fun h => d1 ((strcmp_eq_zero_iff b _ (by decide)).mp h)), if_neg d1]
  by_cases d2 : cstr b = "credentials".toList
  · rw [if_pos ((strcmp_eq_zero_iff b _ (by decide)).mpr d2), if_pos d2]
  rw [if_neg (fun h => d2 ((strcmp_eq_zero_iff b _ (by decide)).mp h)), if_neg d2]
  by_cases d3 : cstr b = "netaddr".toList
  · rw [if_pos ((strcmp_eq_zero_iff b _ (by decide)).mpr d3), if_pos d3]
  rw [if_neg (fun h => d3 ((strcmp_eq_zero_iff b _ (by decide)).mp h)), if_neg d3]
  by_cases d4 : cstr b = "userinfo".toList
  · rw [if_pos ((strcmp_eq_zero_iff b _ (by decide)).mpr d4), if_pos d4]
  rw [if_neg (fun h => d4 ((strcmp_eq_zero_iff b _ (by decide)).mp h)), if_neg d4]
  by_cases d5 : cstr b = "source".toList
  · rw [if_pos ((strcmp_eq_zero_iff b _ (by decide)).mpr d5), if_pos d5]
  rw [if_neg (fun h => d5 ((strcmp_eq_zero_iff b _ (by decide)).mp h)), if_neg d5]
  by_cases d6 : cstr b = "mailaddr".toList
  · rw [if_pos ((strcmp_eq_zero_iff b _ (by decide)).mpr d6), if_pos d6]
  rw [if_neg (fun h => d6 ((strcmp_eq_zero_iff b _ (by decide)).mp h)), if_neg d6]
  by_cases d7 : cstr b = "addrname".toList
  · rw [if_pos ((strcmp_eq_zero_iff b _ (by decide)).mpr d7), if_pos d7]
  rw [if_neg (fun h => d7 ((strcmp_eq_zero_iff b _ (by decide)).mp h)), if_neg d7]
  by_cases d8 : cstr b = "mailaddrmap".toList
  · rw [if_pos ((strcmp_eq_zero_iff b _ (by decide)).mpr d8), if_pos d8]
  rw [if_neg (fun h => d8 ((strcmp_eq_zero_iff b _ (by decide)).mp h)), if_neg d8]

/-- A line `register|` followed by any bytes `b`: the loop decides on the bytes
of `b` before its first NUL. -/
theorem register_loop_step_cstr (s : State) (raw rest b : List Char)
    (hg : getline s.rx = some (raw, rest))
    (hl : chomp raw = "register|".toList ++ b) :
    register_loop s =
      if cstr b = "ready".toList then .done () { s with line := chomp raw, rx := rest }
      else
        match table_service.ofName? (cstr b) with
        | some k =>
          register_loop
            { s with services := Int.lor s.services k.toInt, line := chomp raw, rx := rest }
        | none => .fatal := by
  have hpre : ¬ strncmp (chomp raw) "register|".toList 9 ≠ 0 := by
    rw [not_not, hl]
    exact (strncmp_eq_zero_iff "register|".toList (by decide) _).mpr (List.prefix_append _ _)
  have hdrop : List.drop 9 (chomp raw) = b := by
    rw [hl]
    have h9 : ("register|".toList).length = 9 := by decide
    rw [← h9, List.drop_left]
  rw [register_loop_unfold s raw rest hg, if_neg hpre, hdrop, ofService?_cstr b]
  by_cases hr : cstr b = "ready".toList
  · rw [if_pos ((strcmp_eq_zero_iff b _ (by decide)).mpr hr), if_pos hr]
  · rw [if_neg (fun h => hr ((strcmp_eq_zero_iff b _ (by decide)).mp h)), if_neg hr]

/-- Lines that, read up to their first NUL, are not `register|ready`, followed
by a tail on which the loop ends the process: the loop ends the process. -/
theorem register_loop_skip (tail : List Char)
    (htail : ∀ s : State, s.rx = tail → register_loop s = .fatal) :
    ∀ (pre : List (List Char)),
      (∀ l ∈ pre, '\n' ∉ l ∧ cstr l ≠ "register|ready".toList) →
      ∀ s : State, s.rx = unlines pre ++ tail → register_loop s = .fatal := by
  intro pre
  induction pre with
  | nil =>
    intro _ s hrx
    exact htail s (by simpa [unlines] using hrx)
  | cons l pre ih =>
    intro hpre s hrx
    obtain ⟨hnl, hnr⟩ := hpre l (by simp)
    have hpre1 : ∀ l1 ∈ pre, '\n' ∉ l1 ∧ cstr l1 ≠ "register|ready".toList :=
      fun l1 h1 => hpre l1 (by simp [h1])
    have hg : getline s.rx = some (l ++ ['\n'], unlines pre ++ tail) := by
      rw [hrx]
      have := getline_line l (unlines pre ++ tail) hnl
      simpa [unlines] using this
    by_cases hp : "register|".toList <+: l
    · obtain ⟨b, hb⟩ := hp
      have hb_ready : cstr b ≠ "ready".toList := by
        intro h
        apply hnr
        rw [← hb, cstr_append_of_not_mem _ _ (by decide), h]
        rfl
      rw [register_loop_step_cstr s _ _ b hg (by rw [chomp_line, hb]), if_neg hb_ready]
      cases table_service.ofName? (cstr b) with
      | none => rfl
      | some k => exact ih hpre1 _ rfl
    · exact register_loop_bad s _ _ hg (by rw [chomp_line]; exact hp)

/-- A line that does not start with `register|`, or whose bytes after
`register|` and before the first NUL are neither `ready` nor the name of one of
the nine kinds, ends the process, with or without line feed. -/
theorem register_loop_bad_line (bad : List Char) (hnl : '\n' ∉ bad)
    (hbad : ¬ "register|".toList <+: bad
      ∨ ∃ b, bad = "register|".toList ++ b ∧ cstr b ≠ "ready".toList
          ∧ ∀ k : table_service, cstr b ≠ k.name) :
    (∀ (rest : List Char) (s : State), s.rx = bad ++ '\n' :: rest → register_loop s = .fatal)
    ∧ (bad ≠ [] → ∀ s : State, s.rx = bad → register_loop s = .fatal) := by
  have core : ∀ (s : State) (raw rest : List Char), getline s.rx = some (raw, rest) →
      chomp raw = bad → register_loop s = .fatal := by
    intro s raw rest hg hc
    rcases hbad with hb | ⟨b, hb, hready, hk⟩
    · exact register_loop_bad s raw rest hg (by rw [hc]; exact hb)
    · rw [register_loop_step_cstr s raw rest b hg (by rw [hc, hb]), if_neg hready,
        ofName?_eq_none hk]
  constructor
  · intro rest s hrx
    exact core s _ rest (by rw [hrx]; exact getline_line bad rest hnl) (chomp_line bad)
  · intro hne s hrx
    exact core s _ [] (by rw [hrx]; exact getline_last bad hne hnl) (chomp_last bad hnl)

/-- The flags of the loop stay below `2 ^ 9`. -/
theorem register_loop_mask_lt : ∀ (n : Nat) (s s2 : State), s.rx.length ≤ n →
    (∃ m : Nat, s.services = (m : Int) ∧ m < 2 ^ 9) →
    register_loop s = .done () s2 →
    ∃ m2 : Nat, s2.services = (m2 : Int) ∧ m2 < 2 ^ 9 := by
  intro n
  induction n with
  | zero =>
    intro s s2 hlen hm hdone
    have hrx : s.rx = [] := List.length_eq_zero.mp (Nat.le_zero.mp hlen)
    have hg : getline s.rx = none := by rw [hrx]; rfl
    rw [register_loop_eof s hg] at hdone
    injection hdone with _ hs
    rw [← hs]
    exact hm
  | succ n ih =>
    intro s s2 hlen hm hdone
    cases hg : getline s.rx with
    | none =>
      rw [register_loop_eof s hg] at hdone
      injection hdone with _ hs
      rw [← hs]
      exact hm
    | some pr =>
      obtain ⟨raw, rest⟩ := pr
      have hlt := getline_length_lt s.rx raw rest hg
      rcases register_loop_cases s raw rest hg with h | h | ⟨k, h⟩
      · rw [h] at hdone
        cases hdone
      · rw [h] at hdone
        injection hdone with _ hs
        rw [← hs]
        exact hm
      · rw [h] at hdone
        obtain ⟨m, hm1, hm2⟩ := hm
        refine ih _ s2 (by simp only; omega) ⟨m ||| 2 ^ k.idx, ?_, ?_⟩ hdone
        · simp only [hm1, lor_kind]
        · exact Nat.or_lt_two_pow hm2 (Nat.pow_lt_pow_right (by decide) (idx_lt k))

/-! ## The handshake (C11, C12, C13, C14, C20) -/

/-- C11: for every non-empty list of kinds, in any order and with repetitions,
whose lines `register|<name>` are followed by `register|ready` and by anything
else, the handshake (with no stream error) succeeds; the mask holds exactly the
kinds named, and what follows the `ready` line is left unread. -/
theorem handshake_registers (ks : List table_service) (rest : List Char)
    (hks : ks ≠ []) :
    ∃ s2, main false (register_lines ks ++ ("register|ready".toList ++ '\n' :: rest))
        = .done () s2
      ∧ s2.services = mask_of ks
      ∧ (∀ k : table_service, Int.land s2.services k.toInt ≠ 0 ↔ k ∈ ks)
      ∧ s2.rx = rest :=
  ⟨_, main_register_lines ks rest hks, rfl, fun k => mask_of_iff ks k, rfl⟩

/-- C11, at the child output `register|alias`, `register|domain`,
`register|ready`, `more`: the mask is (alias, domain), that is 3, and `more` is
left unread. -/
theorem handshake_registers_witness :
    [table_service.K_ALIAS, table_service.K_DOMAIN] ≠ []
    ∧ register_lines [table_service.K_ALIAS, table_service.K_DOMAIN]
        ++ ("register|ready".toList ++ '\n' :: "more\n".toList)
      = "register|alias\nregister|domain\nregister|ready\nmore\n".toList
    ∧ (main false
        "register|alias\nregister|domain\nregister|ready\nmore\n".toList).state?.map
          (fun st => (st.services, st.rx))
      = some (3, "more\n".toList) :=
  ⟨by decide, by decide,
    match handshake_registers [table_service.K_ALIAS, table_service.K_DOMAIN]
        "more\n".toList (by decide) with
    | ⟨s2, h, hm, _, hrx⟩ => by
      have h1 : main false
          "register|alias\nregister|domain\nregister|ready\nmore\n".toList
          = .done () s2 := h
      rw [h1]
      simp only [Result.state?, Option.map_some', hm, hrx]
      rfl⟩

/-- C12 fails on the code: the line `register|alias`, NUL, ` junk` carries a
name that is not the name of any kind and stands before the first
`register|ready`, yet the handshake does not end the process; it registers the
kind alias and goes on to dispatch with the mask (alias). -/
theorem handshake_name_nul_registered :
    (∀ k : table_service, "alias".toList ++ NUL :: " junk".toList ≠ k.name)
    ∧ main false
        ("register|".toList ++ ("alias".toList ++ NUL :: " junk".toList)
          ++ "\nregister|ready\n".toList) ≠ .fatal
    ∧ (main false
        ("register|".toList ++ ("alias".toList ++ NUL :: " junk".toList)
          ++ "\nregister|ready\n".toList)).state?.map (fun st => (st.services, st.rx))
      = some (1, []) := by
  have hg : getline (loop_entry
      ("register|".toList ++ ("alias".toList ++ NUL :: " junk".toList)
        ++ "\nregister|ready\n".toList)).rx
      = some (("register|".toList ++ ("alias".toList ++ NUL :: " junk".toList)) ++ ['\n'],
          "register|ready\n".toList) := by decide
  have hc : cstr ("alias".toList ++ NUL :: " junk".toList) = "alias".toList := by decide
  have hloop := register_loop_step_cstr _ _ _ ("alias".toList ++ NUL :: " junk".toList) hg
    (chomp_line _)
  rw [hc, if_neg (by decide), show table_service.ofName? "alias".toList
    = some table_service.K_ALIAS from rfl] at hloop
  simp only [] at hloop
  have hready : ∀ s : State, s.rx = "register|ready\n".toList →
      register_loop s
        = .done () { s with line := "register|ready".toList, rx := [] } :=
    fun s h => register_loop_lines [] s [] h
  replace hloop := hloop.trans (hready _ rfl)
  have hmain : main false
      ("register|".toList ++ ("alias".toList ++ NUL :: " junk".toList)
        ++ "\nregister|ready\n".toList)
      = .done ()
        { services := 1, id := [],
          line := "register|ready".toList, rx := [],
          tx := "config|smtpd-version|7.4.0\nconfig|protocol|0.1\nconfig|ready\n".toList } := by
    rw [main_eq, hloop]
    rfl
  rw [hmain]
  refine ⟨fun k => by cases k <;> decide, ?_, ?_⟩
  · intro h
    cases h
  · rfl

/-- C12, amended: when every line before, read up to its first NUL, is other
than `register|ready`, a line that does not start with `register|`, or whose
name after `register|`, read up to its first NUL, is neither `ready` nor exactly
the name of one of the nine kinds, ends the process, whatever the lines before
and after it and whether or not a line feed follows it. -/
theorem handshake_bad_line_fatal (ferror : Bool) (pre : List (List Char))
    (bad : List Char)
    (hpre : ∀ l ∈ pre, '\n' ∉ l ∧ cstr l ≠ "register|ready".toList)
    (hnl : '\n' ∉ bad)
    (hbad : ¬ "register|".toList <+: bad
      ∨ ∃ b, bad = "register|".toList ++ b ∧ cstr b ≠ "ready".toList
          ∧ ∀ k : table_service, cstr b ≠ k.name) :
    (∀ rest : List Char, main ferror (unlines pre ++ (bad ++ '\n' :: rest)) = .fatal)
    ∧ (bad ≠ [] → main ferror (unlines pre ++ bad) = .fatal) := by
  obtain ⟨h1, h2⟩ := register_loop_bad_line bad hnl hbad
  constructor
  · intro rest
    exact main_fatal_of_loop ferror _
      (register_loop_skip _ (h1 rest) pre hpre _ rfl)
  · intro hne
    exact main_fatal_of_loop ferror _
      (register_loop_skip _ (h2 hne) pre hpre _ rfl)

/-- C12 amended, at the lines `register|alias`, `register|alias ` (a trailing
blank), `register|ready`: the handshake ends the process. -/
theorem handshake_bad_line_fatal_witness :
    '\n' ∉ "register|alias ".toList
    ∧ (∀ k : table_service, cstr "alias ".toList ≠ k.name)
    ∧ main false "register|alias\nregister|alias \nregister|ready\n".toList = .fatal :=
  ⟨by decide, fun k => by cases k <;> decide,
    (handshake_bad_line_fatal false ["register|alias".toList] "register|alias ".toList
      (by decide) (by decide)
      (Or.inr ⟨"alias ".toList, by decide, by decide,
        fun k => by cases k <;> decide⟩)).1 "register|ready\n".toList⟩

/-- C13 fails on the code: when the child sends `register|alias` and closes
the stream, with no stream error, the handshake does not end the process; it
goes on to dispatch with the mask (alias). -/
theorem handshake_eof_not_fatal :
    main false "register|alias\n".toList ≠ .fatal
    ∧ (main false "register|alias\n".toList).state?.map (fun st => (st.services, st.rx))
      = some (1, []) := by
  obtain ⟨s2, h, hs, hrx, -⟩ :=
    register_loop_lines_eof [table_service.K_ALIAS] (loop_entry "register|alias\n".toList) rfl
  have hs1 : s2.services = 1 := by rw [hs]; rfl
  have hmain : main false "register|alias\n".toList = .done () s2 := by
    rw [main_eq, h]
    simp only [Bool.false_eq_true, if_false, hs1]
    rfl
  rw [hmain]
  refine ⟨?_, ?_⟩
  · intro h
    cases h
  · simp only [Result.state?, Option.map_some', hs1, hrx]

/-- C14: whatever the child sends, a handshake that does not end the process
leaves a mask that is not zero and holds at least one kind; in particular the
handshake ends the process when `register|ready` is the first line and when the
input is empty. -/
theorem handshake_mask_nonempty (ferror : Bool) (child : List Char) :
    (∀ s2, main ferror child = .done () s2 →
      s2.services ≠ 0 ∧ ∃ k : table_service, Int.land s2.services k.toInt ≠ 0)
    ∧ (∀ rest, main ferror ("register|ready".toList ++ '\n' :: rest) = .fatal)
    ∧ main ferror "register|ready".toList = .fatal
    ∧ main ferror [] = .fatal := by
  refine ⟨?_, ?_, ?_, ?_⟩
  · intro s2 hmain
    rw [main_eq] at hmain
    cases hloop : register_loop (loop_entry child) with
    | fatal =>
      rw [hloop] at hmain
      cases hmain
    | done u s3 =>
      rw [hloop] at hmain
      simp only at hmain
      split_ifs at hmain with hf hz
      injection hmain with _ hs
      subst hs
      obtain ⟨m, hm, hlt⟩ := register_loop_mask_lt _ (loop_entry child) s3 (le_refl _)
        ⟨0, rfl, by decide⟩ hloop
      refine ⟨hz, ?_⟩
      rw [hm]
      exact exists_kind_of_ne_zero m hlt (fun h0 => hz (by rw [hm, h0]; rfl))
  · intro rest
    rw [main_eq, register_loop_lines [] _ rest rfl]
    cases ferror <;> rfl
  · have hg : getline (loop_entry "register|ready".toList).rx
        = some ("register|ready".toList, []) := by decide
    rw [main_eq, register_loop_step _ _ _ "ready".toList hg (by decide) (by decide),
      if_pos rfl]
    cases ferror <;> rfl
  · rw [main_eq, register_loop_eof _ (by rfl)]
    cases ferror <;> rfl

/-- C20: for each of the nine kinds, `service_name` returns a name; that name
is not `ready` and belongs to no other kind; a handshake that reads `register|`
with that name and then `register|ready` yields the mask holding exactly this
kind; and after a handshake on the lines of a list of kinds, every kind in the
mask has as its request name one of the names the child registered. -/
theorem service_names_agree (k : table_service) :
    ∃ nm, service_name k.toInt = some nm
      ∧ nm ≠ "ready".toList
      ∧ (∀ k1 : table_service, service_name k1.toInt = some nm → k1 = k)
      ∧ (∀ rest, ∃ s2,
          main false ("register|".toList ++ nm ++ '\n'
              :: ("register|ready".toList ++ '\n' :: rest)) = .done () s2
          ∧ s2.services = k.toInt
          ∧ ∀ k1 : table_service, Int.land s2.services k1.toInt ≠ 0 ↔ k1 = k)
      ∧ (∀ (ks : List table_service) (rest : List Char), ks ≠ [] → ∃ s2,
          main false (register_lines ks ++ ("register|ready".toList ++ '\n' :: rest))
            = .done () s2
          ∧ ∀ k1 : table_service, Int.land s2.services k1.toInt ≠ 0 →
              ∃ nm1, service_name k1.toInt = some nm1
                ∧ nm1 ∈ ks.map table_service.name) := by
  refine ⟨k.name, service_name_eq_name k, name_ne_ready k, ?_, ?_, ?_⟩
  · intro k1 h1
    rw [service_name_eq_name] at h1
    have h2 : k1.name = k.name := Option.some.inj h1
    have h3 := ofName?_name k1
    rw [h2, ofName?_name] at h3
    exact (Option.some.inj h3).symm
  · intro rest
    have hm := main_register_lines [k] rest (by simp)
    have hrun : register_lines [k] ++ ("register|ready".toList ++ '\n' :: rest)
        = "register|".toList ++ k.name ++ '\n'
          :: ("register|ready".toList ++ '\n' :: rest) := by
      simp [register_lines]
    rw [hrun] at hm
    refine ⟨_, hm, ?_, ?_⟩
    · cases k <;> rfl
    · intro k1
      have := mask_of_iff [k] k1
      simpa using this
  · intro ks rest hks
    refine ⟨_, main_register_lines ks rest hks, ?_⟩
    intro k1 hk1
    have hmem : k1 ∈ ks := (mask_of_iff ks k1).mp hk1
    exact ⟨k1.name, service_name_eq_name k1, List.mem_map.mpr ⟨k1, hmem, rfl⟩⟩

/-! ## The request line (C15, C17) -/

theorem toDigitsCore_dec (f : Nat) : ∀ (n : Nat) (acc : List Char),
    (∀ c ∈ acc, c ∈ "0123456789".toList) →
    ∀ c ∈ Nat.toDigitsCore 10 f n acc, c ∈ "0123456789".toList := by
  induction f with
  | zero =>
    intro n acc hacc c hc
    simpa [Nat.toDigitsCore] using hacc c hc
  | succ f ih =>
    intro n acc hacc c hc
    have hd : Nat.digitChar (n % 10) ∈ "0123456789".toList := by
      have hlt : n % 10 < 10 := Nat.mod_lt _ (by decide)
      generalize n % 10 = m at hlt
      interval_cases m <;> decide
    have hacc1 : ∀ c ∈ Nat.digitChar (n % 10) :: acc, c ∈ "0123456789".toList := by
      intro c hc
      rcases List.mem_cons.mp hc with h | h
      · rw [h]
        exact hd
      · exact hacc c h
    simp only [Nat.toDigitsCore] at hc
    split at hc
    · exact hacc1 c hc
    · exact ih _ _ hacc1 c hc

theorem toDigits_dec (n : Nat) : ∀ c ∈ Nat.toDigits 10 n, c ∈ "0123456789".toList :=
  toDigitsCore_dec (n + 1) n [] (by simp)

theorem read_toDigits_dec (n : Nat) : read_base 10 (Nat.toDigits 10 n) = n :=
  read_toDigitsCore 10 (by decide) (by decide) (n + 1) n (Nat.lt_succ_self n)

theorem read_base_zeros (b n : Nat) (l : List Char) :
    read_base b (List.replicate n '0' ++ l) = read_base b l := by
  induction n with
  | zero => simp
  | succ n ih =>
    have h0 : digit_value '0' = 0 := by decide
    simp only [read_base, List.replicate_succ, List.cons_append, List.foldl_cons, h0,
      Nat.mul_zero, Nat.add_zero] at ih ⊢
    exact ih

/-- `%06ld` of a number of microseconds: six decimal digits with that value. -/
theorem fmt_06ld_usec (u : Int) (h0 : 0 ≤ u) (h1 : u < 1000000) :
    (fmt_06ld u).length = 6
    ∧ (∀ c ∈ fmt_06ld u, c ∈ "0123456789".toList)
    ∧ (read_base 10 (fmt_06ld u) : Int) = u := by
  have hneg : ¬ u < 0 := by omega
  have hnat : (u.natAbs : Int) = u := Int.natAbs_of_nonneg h0
  have hlt : u.natAbs < 10 ^ 6 := by omega
  have hlen : (Nat.toDigits 10 u.natAbs).length ≤ 6 :=
    Nat.toDigitsCore_length 10 (by decide) (u.natAbs + 1) u.natAbs 6 hlt (by decide)
  simp only [fmt_06ld, if_neg hneg]
  refine ⟨?_, ?_, ?_⟩
  · rw [List.length_append, List.length_replicate]
    omega
  · intro c hc
    rcases List.mem_append.mp hc with h | h
    · rw [(List.mem_replicate.mp h).2]
      decide
    · exact toDigits_dec _ c h
  · rw [read_base_zeros, read_toDigits_dec, hnat]

/-- `%lld` of a number of seconds that is not negative: its decimal digits. -/
theorem fmt_lld_sec (t : Int) (h0 : 0 ≤ t) :
    (∀ c ∈ fmt_lld t, c ∈ "0123456789".toList)
    ∧ (read_base 10 (fmt_lld t) : Int) = t := by
  have hneg : ¬ t < 0 := by omega
  simp only [fmt_lld, if_neg hneg]
  exact ⟨toDigits_dec _, by rw [read_toDigits_dec, Int.natAbs_of_nonneg h0]⟩

/-- What `send_request` writes for a request with a service and a parameter. -/
theorem send_request_kind_key (e : Env) (type : List Char) (k : table_service)
    (key : List Char) (s : State) :
    send_request e type k.toInt (some key) s
      = .done (if e.fflush_ok then 0 else -1)
        { s with id := fresh_id e, sent := s.sent + 1,
                 tx := s.tx ++ ("table|0.1|".toList ++ fmt_lld e.tv_sec ++ '.' ::
                   fmt_06ld e.tv_usec ++ '|' :: cstr e.table_name ++ '|' :: cstr type
                   ++ '|' :: k.name ++ '|' :: fresh_id e ++ '|' :: cstr key ++ ['\n']) } := by
  have hid : cstr (fresh_id e) = fresh_id e := cstr_of_not_mem (fresh_id_no_nul e)
  have hnm : cstr k.name = k.name := cstr_of_not_mem (name_no_nul k)
  have hv : cstr PROTOCOL_VERSION = "0.1".toList := by decide
  simp only [send_request, if_pos (kind_ne_minus_one k), service_name_eq_name, nextid_eq,
    fmt_s, hid, hnm, hv, State.write, State.count_request]
  cases e.fflush_ok <;> simp

/-- What `send_request` writes for a request with a service and no parameter. -/
theorem send_request_kind_none (e : Env) (type : List Char) (k : table_service)
    (s : State) :
    send_request e type k.toInt none s
      = .done (if e.fflush_ok then 0 else -1)
        { s with id := fresh_id e, sent := s.sent + 1,
                 tx := s.tx ++ ("table|0.1|".toList ++ fmt_lld e.tv_sec ++ '.' ::
                   fmt_06ld e.tv_usec ++ '|' :: cstr e.table_name ++ '|' :: cstr type
                   ++ '|' :: k.name ++ '|' :: fresh_id e ++ ['\n']) } := by
  have hid : cstr (fresh_id e) = fresh_id e := cstr_of_not_mem (fresh_id_no_nul e)
  have hnm : cstr k.name = k.name := cstr_of_not_mem (name_no_nul k)
  have hv : cstr PROTOCOL_VERSION = "0.1".toList := by decide
  simp only [send_request, if_pos (kind_ne_minus_one k), service_name_eq_name, nextid_eq,
    fmt_s, hid, hnm, hv, State.write, State.count_request]
  cases e.fflush_ok <;> simp

/-- What `send_request` writes for a request without service. -/
theorem send_request_no_service (e : Env) (type : List Char)
    (param : Option (List Char)) (s : State) :
    send_request e type (-1) param s
      = .done (if e.fflush_ok then 0 else -1)
        { s with id := fresh_id e, sent := s.sent + 1,
                 tx := s.tx ++ ("table|0.1|".toList ++ fmt_lld e.tv_sec ++ '.' ::
                   fmt_06ld e.tv_usec ++ '|' :: cstr e.table_name ++ '|' :: cstr type
                   ++ '|' :: fresh_id e ++ ['\n']) } := by
  have hid : cstr (fresh_id e) = fresh_id e := cstr_of_not_mem (fresh_id_no_nul e)
  have hv : cstr PROTOCOL_VERSION = "0.1".toList := by decide
  simp only [send_request, nextid_eq, fmt_s, hid, hv, State.write, State.count_request]
  cases e.fflush_ok <;> simp

/-- C15: for a table name and a key that are C strings and a time stamp with
`0 <= usec < 1000000`, `send_request` writes exactly
`table|0.1|<sec>.<usec>|<table-name>|update|<id>` for update,
`table|0.1|<sec>.<usec>|<table-name>|<op>|<service-name>|<id>|<key>` for check
and lookup, and `table|0.1|<sec>.<usec>|<table-name>|fetch|<service-name>|<id>`
for fetch, each followed by one line feed.  `<usec>` is six decimal digits with
the value `usec`, `<sec>` the decimal digits of `sec` (when not negative),
`<service-name>` the name `service_name` gives, the key is copied as it is, and
`<id>` is the id left in `id`, the one `parse_reply` then requires. -/
theorem request_line_format (e : Env) (k : table_service) (key : List Char) (s : State)
    (hname : NUL ∉ e.table_name) (hkey : NUL ∉ key)
    (hu0 : 0 ≤ e.tv_usec) (hu1 : e.tv_usec < 1000000) :
    ((fmt_06ld e.tv_usec).length = 6
      ∧ (∀ c ∈ fmt_06ld e.tv_usec, c ∈ "0123456789".toList)
      ∧ (read_base 10 (fmt_06ld e.tv_usec) : Int) = e.tv_usec)
    ∧ (0 ≤ e.tv_sec → (∀ c ∈ fmt_lld e.tv_sec, c ∈ "0123456789".toList)
        ∧ (read_base 10 (fmt_lld e.tv_sec) : Int) = e.tv_sec)
    ∧ service_name k.toInt = some k.name
    ∧ (∃ rc s1, send_request e "update".toList (-1) none s = .done rc s1
        ∧ s1.id = fresh_id e
        ∧ s1.tx = s.tx ++ ("table|0.1|".toList ++ fmt_lld e.tv_sec ++ ".".toList
            ++ fmt_06ld e.tv_usec ++ "|".toList ++ e.table_name ++ "|update|".toList
            ++ fresh_id e ++ "\n".toList))
    ∧ (∃ rc s1, send_request e "check".toList k.toInt (some key) s = .done rc s1
        ∧ s1.id = fresh_id e
        ∧ s1.tx = s.tx ++ ("table|0.1|".toList ++ fmt_lld e.tv_sec ++ ".".toList
            ++ fmt_06ld e.tv_usec ++ "|".toList ++ e.table_name ++ "|check|".toList
            ++ k.name ++ "|".toList ++ fresh_id e ++ "|".toList ++ key ++ "\n".toList))
    ∧ (∃ rc s1, send_request e "lookup".toList k.toInt (some key) s = .done rc s1
        ∧ s1.id = fresh_id e
        ∧ s1.tx = s.tx ++ ("table|0.1|".toList ++ fmt_lld e.tv_sec ++ ".".toList
            ++ fmt_06ld e.tv_usec ++ "|".toList ++ e.table_name ++ "|lookup|".toList
            ++ k.name ++ "|".toList ++ fresh_id e ++ "|".toList ++ key ++ "\n".toList))
    ∧ (∃ rc s1, send_request e "fetch".toList k.toInt none s = .done rc s1
        ∧ s1.id = fresh_id e
        ∧ s1.tx = s.tx ++ ("table|0.1|".toList ++ fmt_lld e.tv_sec ++ ".".toList
            ++ fmt_06ld e.tv_usec ++ "|".toList ++ e.table_name ++ "|fetch|".toList
            ++ k.name ++ "|".toList ++ fresh_id e ++ "\n".toList))
    ∧ (∀ (t : List Char) (s1 : State) (raw rest : List Char), NUL ∉ t →
        s1.id = fresh_id e → getline s1.rx = some (raw, rest) →
        ((∃ p s2, parse_reply t s1 = .done (some p) s2)
          ↔ (t ++ '|' :: (fresh_id e ++ ['|'])) <+: chomp raw)) := by
  have hn : cstr e.table_name = e.table_name := cstr_of_not_mem hname
  have hk : cstr key = key := cstr_of_not_mem hkey
  have hup : cstr "update".toList = "update".toList := by decide
  have hch : cstr "check".toList = "check".toList := by decide
  have hlo : cstr "lookup".toList = "lookup".toList := by decide
  have hfe : cstr "fetch".toList = "fetch".toList := by decide
  refine ⟨fmt_06ld_usec _ hu0 hu1, fmt_lld_sec _, service_name_eq_name k, ?_, ?_, ?_, ?_, ?_⟩
  · exact ⟨_, _, send_request_no_service e _ none s, rfl, by simp only [hn, hup]; simp⟩
  · exact ⟨_, _, send_request_kind_key e _ k key s, rfl, by simp only [hn, hk, hch]; simp⟩
  · exact ⟨_, _, send_request_kind_key e _ k key s, rfl, by simp only [hn, hk, hlo]; simp⟩
  · exact ⟨_, _, send_request_kind_none e _ k s, rfl, by simp only [hn, hfe]; simp⟩
  · intro t s1 raw rest ht hid hg
    have hi : NUL ∉ s1.id := by rw [hid]; exact fresh_id_no_nul e
    rw [parse_reply_eq t s1 raw rest ht hi hg, hid]
    unfold payload_after
    constructor
    · rintro ⟨p, s2, h⟩
      split at h
      · assumption
      · injection h with h1 _
        cases h1
    · intro hp
      rw [if_pos hp]
      exact ⟨_, _, rfl⟩

/-- C15, at 1700000000 s and 42 us, table `aliases`, id `1f`, and the key
`bob|x`, for a lookup of the kind alias. -/
theorem request_line_format_witness :
    NUL ∉ "aliases".toList ∧ NUL ∉ "bob|x".toList
    ∧ (send_request
        { tv_sec := 1700000000, tv_usec := 42, table_name := "aliases".toList,
          arc4random := 31, fflush_ok := true }
        "lookup".toList table_service.K_ALIAS.toInt (some "bob|x".toList)
        { services := 1, id := [], line := [], rx := [], tx := [] }).state?.map
          (fun st => st.tx)
      = some "table|0.1|1700000000.000042|aliases|lookup|alias|1f|bob|x\n".toList :=
  ⟨by decide, by decide,
    match (request_line_format
        { tv_sec := 1700000000, tv_usec := 42, table_name := "aliases".toList,
          arc4random := 31, fflush_ok := true }
        table_service.K_ALIAS "bob|x".toList
        { services := 1, id := [], line := [], rx := [], tx := [] }
        (by decide) (by decide) (by decide) (by decide)).2.2.2.2.2.1 with
    | ⟨_, _, h, _, htx⟩ => by
      rw [h]
      simp only [Result.state?, Option.map_some', htx]
      decide⟩

theorem cstr_subset (p : List Char) : ∀ c ∈ cstr p, c ∈ p := by
  intro c hc
  exact (List.takeWhile_prefix (fun c => c != NUL)).subset hc

theorem fmt_lld_no_newline (n : Int) : '\n' ∉ fmt_lld n := by
  intro h
  unfold fmt_lld at h
  split at h
  · rcases List.mem_cons.mp h with h1 | h1
    · exact absurd h1 (by decide)
    · exact absurd (toDigits_dec _ _ h1) (by decide)
  · exact absurd (toDigits_dec _ _ h) (by decide)

theorem fmt_06ld_no_newline (n : Int) : '\n' ∉ fmt_06ld n := by
  intro h
  simp only [fmt_06ld] at h
  split at h
  · rcases List.mem_cons.mp h with h1 | h1
    · exact absurd h1 (by decide)
    · rcases List.mem_append.mp h1 with h2 | h2
      · exact absurd (List.mem_replicate.mp h2).2 (by decide)
      · exact absurd (toDigits_dec _ _ h2) (by decide)
  · rcases List.mem_append.mp h with h2 | h2
    · exact absurd (List.mem_replicate.mp h2).2 (by decide)
    · exact absurd (toDigits_dec _ _ h2) (by decide)

theorem fresh_id_no_newline (e : Env) : '\n' ∉ fresh_id e := by
  intro h
  exact absurd (fresh_id_hex e _ h) (by decide)

/-- The part of a request line that all requests share holds no line feed
when the table name and the type hold none. -/
theorem request_head_no_newline (e : Env) (type : List Char)
    (ht : '\n' ∉ type) (hn : '\n' ∉ e.table_name) :
    '\n' ∉ "table|0.1|".toList ++ fmt_lld e.tv_sec ++ '.' ::
      fmt_06ld e.tv_usec ++ '|' :: cstr e.table_name ++ '|' :: cstr type := by
  have h1 := fmt_lld_no_newline e.tv_sec
  have h2 := fmt_06ld_no_newline e.tv_usec
  have h3 : '\n' ∉ cstr e.table_name := fun h => hn (cstr_subset _ _ h)
  have h4 : '\n' ∉ cstr type := fun h => ht (cstr_subset _ _ h)
  have h5 : '\n' ∉ "table|0.1|".toList := by decide
  have e1 : ('\n' : Char) ≠ '.' := by decide
  have e2 : ('\n' : Char) ≠ '|' := by decide
  simp only [List.mem_append, List.mem_cons, not_or]
  tauto

/-- C17 fails on the code: for the key `a`, line feed, `b` the request that
`send_request` writes holds two line feeds, so the child reads it as two
lines. -/
theorem request_key_newline_two_lines :
    (send_request
        { tv_sec := 1700000000, tv_usec := 42, table_name := "aliases".toList,
          arc4random := 31, fflush_ok := true }
        "check".toList table_service.K_ALIAS.toInt (some "a\nb".toList)
        { services := 1, id := [], line := [], rx := [], tx := [] }).state?.map
          (fun st => (st.tx, st.tx.count '\n'))
      = some ("table|0.1|1700000000.000042|aliases|check|alias|1f|a\nb\n".toList, 2) := by
  decide

/-- C17, amended: when the type, the table name and the parameter (if there is
one) hold no line feed, what `send_request` writes, with a service kind or
without service, is one line: it holds exactly one line feed, as its last
character.  A `|` in the key does not matter. -/
theorem request_single_line (e : Env) (type : List Char) (k : table_service)
    (param : Option (List Char)) (s : State)
    (ht : '\n' ∉ type) (hn : '\n' ∉ e.table_name)
    (hp : ∀ key, param = some key → '\n' ∉ key) :
    (∃ rc s1 body, send_request e type k.toInt param s = .done rc s1
        ∧ s1.tx = s.tx ++ (body ++ ['\n']) ∧ '\n' ∉ body
        ∧ (body ++ ['\n']).count '\n' = 1)
    ∧ (∃ rc s1 body, send_request e type (-1) param s = .done rc s1
        ∧ s1.tx = s.tx ++ (body ++ ['\n']) ∧ '\n' ∉ body
        ∧ (body ++ ['\n']).count '\n' = 1) := by
  have hh := request_head_no_newline e type ht hn
  have hid := fresh_id_no_newline e
  have hname := name_no_newline k
  have e2 : ('\n' : Char) ≠ '|' := by decide
  have hcount : ∀ body : List Char, '\n' ∉ body → (body ++ ['\n']).count '\n' = 1 := by
    intro body hb
    rw [List.count_append, List.count_eq_zero.mpr hb]
    decide
  constructor
  · cases param with
    | none =>
      have hb : '\n' ∉ ("table|0.1|".toList ++ fmt_lld e.tv_sec ++ '.' ::
          fmt_06ld e.tv_usec ++ '|' :: cstr e.table_name ++ '|' :: cstr type)
          ++ '|' :: k.name ++ '|' :: fresh_id e := by
        simp only [List.mem_append, List.mem_cons, not_or] at hh ⊢
        exact ⟨⟨hh, e2, hname⟩, e2, hid⟩
      exact ⟨_, _, _, send_request_kind_none e type k s, by simp, hb, hcount _ hb⟩
    | some key =>
      have hkey : '\n' ∉ cstr key := fun h => hp key rfl (cstr_subset _ _ h)
      have hb : '\n' ∉ ("table|0.1|".toList ++ fmt_lld e.tv_sec ++ '.' ::
          fmt_06ld e.tv_usec ++ '|' :: cstr e.table_name ++ '|' :: cstr type)
          ++ '|' :: k.name ++ '|' :: fresh_id e ++ '|' :: cstr key := by
        simp only [List.mem_append, List.mem_cons, not_or] at hh ⊢
        exact ⟨⟨⟨hh, e2, hname⟩, e2, hid⟩, e2, hkey⟩
      exact ⟨_, _, _, send_request_kind_key e type k key s, by simp, hb, hcount _ hb⟩
  · have hb : '\n' ∉ ("table|0.1|".toList ++ fmt_lld e.tv_sec ++ '.' ::
        fmt_06ld e.tv_usec ++ '|' :: cstr e.table_name ++ '|' :: cstr type)
        ++ '|' :: fresh_id e := by
      simp only [List.mem_append, List.mem_cons, not_or] at hh ⊢
      exact ⟨hh, e2, hid⟩
    exact ⟨_, _, _, send_request_no_service e type param s, by simp, hb, hcount _ hb⟩

/-- C17 amended, at the key `bob|x`: the request is one line. -/
theorem request_single_line_witness :
    '\n' ∉ "lookup".toList ∧ '\n' ∉ "aliases".toList ∧ '\n' ∉ "bob|x".toList
    ∧ (send_request
        { tv_sec := 1700000000, tv_usec := 42, table_name := "aliases".toList,
          arc4random := 31, fflush_ok := true }
        "lookup".toList table_service.K_ALIAS.toInt (some "bob|x".toList)
        { services := 1, id := [], line := [], rx := [], tx := [] }).state?.map
          (fun st => st.tx.count '\n')
      = some 1 :=
  ⟨by decide, by decide, by decide,
    match (request_single_line
        { tv_sec := 1700000000, tv_usec := 42, table_name := "aliases".toList,
          arc4random := 31, fflush_ok := true }
        "lookup".toList table_service.K_ALIAS (some "bob|x".toList)
        { services := 1, id := [], line := [], rx := [], tx := [] }
        (by decide) (by decide)
        (fun key hk => by
          have h1 : key = "bob|x".toList := (Option.some.inj hk).symm
          rw [h1]
          decide)).1 with
    | ⟨_, _, _, h, htx, _, hc⟩ => by
      rw [h]
      simp only [Result.state?, Option.map_some', htx, List.nil_append]
      exact congrArg some hc⟩

/-! ## Sequences of handler calls (C16, C18) -/

theorem update_eq_round_trip (e : Env) (s : State) :
    table_procexec_update e s
      = round_trip e "update".toList (-1) none (fun rc => rc == -1)
          "update-result".toList decode_update s := by
  simp only [table_procexec_update, round_trip, decode_update, beq_iff_eq]

theorem check_eq_round_trip (e : Env) (service : Int) (key : List Char) (s : State) :
    table_procexec_check e service key s
      = if Int.land s.services service = 0 then .done (-1) s
        else round_trip e "check".toList service (some key) (fun rc => rc == -1)
          "check-result".toList decode_check s := by
  simp only [table_procexec_check, round_trip, decode_check, beq_iff_eq]

theorem lookup_eq_round_trip (e : Env) (service : Int) (key dst : List Char) (sz : Nat)
    (s : State) :
    table_procexec_lookup e service key dst sz s
      = if Int.land s.services service = 0 then .done (-1, dst) s
        else round_trip e "lookup".toList service (some key) (fun rc => rc == -1)
          "lookup-result".toList (decode_lookup dst sz) s := by
  simp only [table_procexec_lookup, round_trip, decode_lookup, beq_iff_eq]

theorem fetch_eq_round_trip (e : Env) (service : Int) (dst : List Char) (sz : Nat)
    (k : List Char) (s : State) :
    table_procexec_fetch e service dst sz k s
      = if Int.land s.services service = 0 then .done (-1, dst) s
        else round_trip e "fetch".toList service none (fun rc => rc != 0)
          "fetch-result".toList (decode_fetch dst sz k) s := by
  simp only [table_procexec_fetch, round_trip, decode_fetch, bne_iff_ne]

theorem getline_eq_none : ∀ l : List Char, getline l = none → l = [] := by
  intro l h
  cases l with
  | nil => rfl
  | cons c cs =>
    simp only [getline] at h
    split at h
    · cases h
    · split at h <;> cases h

/-- Reading a line takes one line out of the stream. -/
theorem nlines_getline : ∀ (l raw rest : List Char),
    getline l = some (raw, rest) → nlines l = nlines rest + 1 := by
  intro l
  induction l with
  | nil =>
    intro raw rest h
    simp [getline] at h
  | cons c cs ih =>
    intro raw rest h
    simp only [getline] at h
    by_cases hc : c = '\n'
    · rw [if_pos hc] at h
      simp only [Option.some.injEq, Prod.mk.injEq] at h
      simp only [nlines, if_pos hc, h.2]
    · rw [if_neg hc] at h
      cases hg : getline cs with
      | none =>
        rw [hg] at h
        simp only [Option.some.injEq, Prod.mk.injEq] at h
        have hcs := getline_eq_none cs hg
        simp only [nlines, if_neg hc, hcs, if_true, ← h.2]
      | some pr =>
        obtain ⟨l1, r1⟩ := pr
        rw [hg] at h
        simp only [Option.some.injEq, Prod.mk.injEq] at h
        have hne : cs ≠ [] := by
          intro hnil
          rw [hnil] at hg
          simp [getline] at hg
        simp only [nlines, if_neg hc, if_neg hne]
        rw [← h.2]
        exact ih l1 r1 hg

/-- `send_request`, when it returns, has sent one request and read nothing. -/
theorem send_request_counts (e : Env) (type : List Char) (service : Int)
    (param : Option (List Char)) (s s1 : State) (rc : Int)
    (h : send_request e type service param s = .done rc s1) :
    s1.sent = s.sent + 1 ∧ s1.rx = s.rx ∧ s1.services = s.services := by
  simp only [send_request, nextid_eq] at h
  by_cases hs : service = -1
  · subst hs
    cases hf : e.fflush_ok <;> rw [hf] at h <;>
      (injection h with _ h2; rw [← h2]; exact ⟨rfl, rfl, rfl⟩)
  · rw [if_pos hs] at h
    cases hn : service_name service with
    | none =>
      rw [hn] at h
      cases h
    | some nm =>
      rw [hn] at h
      cases param <;> cases hf : e.fflush_ok <;> rw [hf] at h <;>
        (injection h with _ h2; rw [← h2]; exact ⟨rfl, rfl, rfl⟩)

/-- `parse_reply`, when it returns, has consumed one line and sent nothing. -/
theorem parse_reply_counts (t : List Char) (s s1 : State) (r : Option (List Char))
    (h : parse_reply t s = .done r s1) :
    s1.sent = s.sent ∧ nlines s.rx = nlines s1.rx + 1 ∧ s1.services = s.services := by
  cases hg : getline s.rx with
  | none =>
    simp only [parse_reply, hg] at h
    cases h
  | some pr =>
    obtain ⟨raw, rest⟩ := pr
    have hn := nlines_getline s.rx raw rest hg
    simp only [parse_reply, hg] at h
    have key : s1 = { s with line := chomp raw, rx := rest } := by
      split_ifs at h <;> (injection h with _ h2; exact h2.symm)
    rw [key]
    exact ⟨rfl, hn, rfl⟩

theorem round_trip_done {α : Type} (e : Env) (type : List Char) (service : Int)
    (param : Option (List Char)) (failed : Int → Bool) (rtype : List Char)
    (decode : List Char → State → Result α) (s s2 : State) (v : α)
    (h : round_trip e type service param failed rtype decode s = .done v s2) :
    ∃ rc s1 r s3, send_request e type service param s = .done rc s1
      ∧ parse_reply rtype s1 = .done (some r) s3 ∧ decode r s3 = .done v s2 := by
  unfold round_trip at h
  cases hs : send_request e type service param s with
  | fatal =>
    rw [hs] at h
    cases h
  | done rc s1 =>
    rw [hs] at h
    simp only at h
    split_ifs at h
    cases hp : parse_reply rtype s1 with
    | fatal =>
      rw [hp] at h
      cases h
    | done r s3 =>
      rw [hp] at h
      cases r with
      | none => cases h
      | some r => exact ⟨rc, s1, r, s3, rfl, hp, h⟩

theorem decode_update_state (r : List Char) (s3 s2 : State) (v : Int)
    (h : decode_update r s3 = .done v s2) : s2 = s3 := by
  unfold decode_update at h
  split_ifs at h <;> (injection h with _ h2; exact h2.symm)

theorem decode_check_state (r : List Char) (s3 s2 : State) (v : Int)
    (h : decode_check r s3 = .done v s2) : s2 = s3 := by
  unfold decode_check at h
  split_ifs at h <;> (injection h with _ h2; exact h2.symm)

theorem decode_lookup_state (dst : List Char) (sz : Nat) (r : List Char) (s3 s2 : State)
    (v : Int × List Char) (h : decode_lookup dst sz r s3 = .done v s2) : s2 = s3 := by
  unfold decode_lookup at h
  split_ifs at h <;> (injection h with _ h2; exact h2.symm)

theorem decode_fetch_state (dst : List Char) (sz : Nat) (k r : List Char) (s3 s2 : State)
    (v : Int × List Char) (h : decode_fetch dst sz k r s3 = .done v s2) : s2 = s3 := by
  unfold decode_fetch at h
  split_ifs at h <;> (injection h with _ h2; exact h2.symm)

/-- A handler call that returns has either done nothing with the stream, or
one `send_request` followed by one `parse_reply`. -/
theorem exec_done (c : Call) (e : Env) (s s2 : State) (v : Int)
    (h : c.exec e s = .done v s2) :
    s2 = s ∨ ∃ type service param rtype rc s1 r,
      send_request e type service param s = .done rc s1
      ∧ parse_reply rtype s1 = .done (some r) s2 := by
  cases c with
  | update =>
    simp only [Call.exec, update_eq_round_trip] at h
    obtain ⟨rc, s1, r, s3, h1, h2, h3⟩ := round_trip_done _ _ _ _ _ _ _ _ _ _ h
    rw [decode_update_state r s3 s2 v h3]
    exact Or.inr ⟨_, _, _, _, rc, s1, r, h1, h2⟩
  | check service key =>
    simp only [Call.exec, check_eq_round_trip] at h
    split_ifs at h
    · injection h with _ h2
      exact Or.inl h2.symm
    · obtain ⟨rc, s1, r, s3, h1, h2, h3⟩ := round_trip_done _ _ _ _ _ _ _ _ _ _ h
      rw [decode_check_state r s3 s2 v h3]
      exact Or.inr ⟨_, _, _, _, rc, s1, r, h1, h2⟩
  | lookup service key dst sz =>
    simp only [Call.exec, lookup_eq_round_trip] at h
    split_ifs at h
    · injection h with _ h2
      exact Or.inl h2.symm
    · cases hr : round_trip e "lookup".toList service (some key) (fun rc => rc == -1)
          "lookup-result".toList (decode_lookup dst sz) s with
      | fatal =>
        rw [hr] at h
        cases h
      | done w s4 =>
        rw [hr] at h
        injection h with _ h2
        subst h2
        obtain ⟨rc, s1, r, s3, h1, h2, h3⟩ := round_trip_done _ _ _ _ _ _ _ _ _ _ hr
        rw [decode_lookup_state dst sz r s3 s4 w h3]
        exact Or.inr ⟨_, _, _, _, rc, s1, r, h1, h2⟩
  | fetch service dst sz k =>
    simp only [Call.exec, fetch_eq_round_trip] at h
    split_ifs at h
    · injection h with _ h2
      exact Or.inl h2.symm
    · cases hr : round_trip e "fetch".toList service none (fun rc => rc != 0)
          "fetch-result".toList (decode_fetch dst sz k) s with
      | fatal =>
        rw [hr] at h
        cases h
      | done w s4 =>
        rw [hr] at h
        injection h with _ h2
        subst h2
        obtain ⟨rc, s1, r, s3, h1, h2, h3⟩ := round_trip_done _ _ _ _ _ _ _ _ _ _ hr
        rw [decode_fetch_state dst sz k r s3 s4 w h3]
        exact Or.inr ⟨_, _, _, _, rc, s1, r, h1, h2⟩

theorem send_request_outstanding (s0 : State) (e : Env) (type : List Char) (service : Int)
    (param : Option (List Char)) (s s1 : State) (rc : Int)
    (h : send_request e type service param s = .done rc s1) :
    outstanding s0 s1 = outstanding s0 s + 1 := by
  obtain ⟨h1, h2, -⟩ := send_request_counts e type service param s s1 rc h
  simp only [outstanding, h1, h2]
  omega

theorem parse_reply_outstanding (s0 : State) (t : List Char) (s s1 : State)
    (r : Option (List Char)) (h : parse_reply t s = .done r s1) :
    outstanding s0 s1 = outstanding s0 s - 1 := by
  obtain ⟨h1, h2, -⟩ := parse_reply_counts t s s1 r h
  simp only [outstanding, h1, h2]
  omega

theorem exec_outstanding (s0 : State) (c : Call) (e : Env) (s s2 : State) (v : Int)
    (h : c.exec e s = .done v s2) : outstanding s0 s2 = outstanding s0 s := by
  rcases exec_done c e s s2 v h with h1 | ⟨type, service, param, rtype, rc, s1, r, hs, hp⟩
  · rw [h1]
  · rw [parse_reply_outstanding s0 rtype s1 s2 _ hp,
      send_request_outstanding s0 e type service param s s1 rc hs]
    omega

theorem exec_services (c : Call) (e : Env) (s s2 : State) (v : Int)
    (h : c.exec e s = .done v s2) : s2.services = s.services := by
  rcases exec_done c e s s2 v h with h1 | ⟨type, service, param, rtype, rc, s1, r, hs, hp⟩
  · rw [h1]
  · rw [(parse_reply_counts rtype s1 s2 _ hp).2.2,
      (send_request_counts e type service param s s1 rc hs).2.2]

theorem run_outstanding (s0 : State) : ∀ (calls : List (Call × Env)) (s s2 : State)
    (vs : List Int), run calls s = .done vs s2 →
    outstanding s0 s2 = outstanding s0 s ∧ s2.services = s.services := by
  intro calls
  induction calls with
  | nil =>
    intro s s2 vs h
    simp only [run] at h
    injection h with _ h2
    rw [h2]
    exact ⟨rfl, rfl⟩
  | cons ce cs ih =>
    intro s s2 vs h
    obtain ⟨c, e⟩ := ce
    cases hx : c.exec e s with
    | fatal =>
      simp only [run, hx] at h
      cases h
    | done v s1 =>
      cases hr : run cs s1 with
      | fatal =>
        simp only [run, hx, hr] at h
        cases h
      | done vs1 s3 =>
        simp only [run, hx, hr] at h
        injection h with _ h2
        subst h2
        obtain ⟨i1, i2⟩ := ih s1 s3 vs1 hr
        exact ⟨by rw [i1, exec_outstanding s0 c e s s1 v hx],
          by rw [i2, exec_services c e s s1 v hx]⟩

theorem run_append : ∀ (pre post : List (Call × Env)) (s s2 : State) (vs : List Int),
    run (pre ++ post) s = .done vs s2 →
    ∃ vs1 s1 vs2, run pre s = .done vs1 s1 ∧ run post s1 = .done vs2 s2 := by
  intro pre
  induction pre with
  | nil =>
    intro post s s2 vs h
    exact ⟨[], s, vs, rfl, h⟩
  | cons ce cs ih =>
    intro post s s2 vs h
    obtain ⟨c, e⟩ := ce
    rw [List.cons_append] at h
    cases hx : c.exec e s with
    | fatal =>
      simp only [run, hx] at h
      cases h
    | done v s1 =>
      cases hr : run (cs ++ post) s1 with
      | fatal =>
        simp only [run, hx, hr] at h
        cases h
      | done vs1 s3 =>
        simp only [run, hx, hr] at h
        injection h with _ h2
        subst h2
        obtain ⟨w1, t1, w2, g1, g2⟩ := ih post s1 s3 vs1 hr
        refine ⟨v :: w1, t1, w2, ?_, g2⟩
        simp only [run, hx, g1]

theorem outstanding_self (s0 : State) : outstanding s0 s0 = 0 := by
  simp only [outstanding]
  omega

/-- C18: each handler is at most one exchange with the child, one
`send_request` followed by one `parse_reply` and a decoding that leaves the
stream alone; `send_request` adds one to the number of requests sent minus the
number of reply lines consumed and `parse_reply` takes one off; a handler call
that returns leaves that number as it found it, having either done nothing or
sent once and then read once; and counted from any state `s0`, the number is 0
at the return of every sequence of handler calls, so at the entry and at the
return of every handler. -/
theorem one_request_outstanding (s0 : State) :
    (∀ e s, table_procexec_update e s
        = round_trip e "update".toList (-1) none (fun rc => rc == -1)
            "update-result".toList decode_update s)
    ∧ (∀ e service key s, table_procexec_check e service key s
        = if Int.land s.services service = 0 then .done (-1) s
          else round_trip e "check".toList service (some key) (fun rc => rc == -1)
            "check-result".toList decode_check s)
    ∧ (∀ e service key dst sz s, table_procexec_lookup e service key dst sz s
        = if Int.land s.services service = 0 then .done (-1, dst) s
          else round_trip e "lookup".toList service (some key) (fun rc => rc == -1)
            "lookup-result".toList (decode_lookup dst sz) s)
    ∧ (∀ e service dst sz k s, table_procexec_fetch e service dst sz k s
        = if Int.land s.services service = 0 then .done (-1, dst) s
          else round_trip e "fetch".toList service none (fun rc => rc != 0)
            "fetch-result".toList (decode_fetch dst sz k) s)
    ∧ (∀ e type service param s rc s1,
        send_request e type service param s = .done rc s1 →
        outstanding s0 s1 = outstanding s0 s + 1)
    ∧ (∀ t s r s1, parse_reply t s = .done r s1 →
        outstanding s0 s1 = outstanding s0 s - 1)
    ∧ (∀ (c : Call) e s v s2, c.exec e s = .done v s2 →
        outstanding s0 s2 = outstanding s0 s
        ∧ (s2 = s ∨ ∃ type service param rtype rc s1 r,
            send_request e type service param s = .done rc s1
            ∧ parse_reply rtype s1 = .done (some r) s2
            ∧ outstanding s0 s1 = outstanding s0 s + 1))
    ∧ (∀ calls vs s, run calls s0 = .done vs s → outstanding s0 s = 0)
    ∧ (∀ pre post vs s, run (pre ++ post) s0 = .done vs s →
        ∃ vs1 s1, run pre s0 = .done vs1 s1 ∧ outstanding s0 s1 = 0) := by
  refine ⟨update_eq_round_trip, check_eq_round_trip, lookup_eq_round_trip,
    fetch_eq_round_trip, ?_, ?_, ?_, ?_, ?_⟩
  · intro e type service param s rc s1 h
    exact send_request_outstanding s0 e type service param s s1 rc h
  · intro t s r s1 h
    exact parse_reply_outstanding s0 t s s1 r h
  · intro c e s v s2 h
    refine ⟨exec_outstanding s0 c e s s2 v h, ?_⟩
    rcases exec_done c e s s2 v h with h1 | ⟨type, service, param, rtype, rc, s1, r, hs, hp⟩
    · exact Or.inl h1
    · exact Or.inr ⟨type, service, param, rtype, rc, s1, r, hs, hp,
        send_request_outstanding s0 e type service param s s1 rc hs⟩
  · intro calls vs s h
    rw [(run_outstanding s0 calls s0 s vs h).1, outstanding_self]
  · intro pre post vs s h
    obtain ⟨vs1, s1, vs2, g1, -⟩ := run_append pre post s0 s vs h
    exact ⟨vs1, s1, g1, by rw [(run_outstanding s0 pre s0 s1 vs1 g1).1, outstanding_self]⟩

theorem found_line_no_newline (e : Env) :
    '\n' ∉ reply_line "check-result".toList (fresh_id e) "found".toList := by
  have hid := fresh_id_no_newline e
  have h1 : '\n' ∉ "check-result".toList := by decide
  have h2 : '\n' ∉ "found".toList := by decide
  have e2 : ('\n' : Char) ≠ '|' := by decide
  simp only [reply_line, List.mem_append, List.mem_cons, not_or]
  tauto

/-- C16: for a registered kind and a key, when the child answers every check
request with `check-result|<id>|found` carrying the id of that very request,
any number of consecutive check calls with that key all return 1 (exists); the
replies are consumed one per call and the mask is the same afterwards. -/
theorem check_repeat_found (k : table_service) (key : List Char) :
    ∀ (envs : List Env) (s : State) (rest : List Char),
      Int.land s.services k.toInt ≠ 0 →
      (∀ e ∈ envs, e.fflush_ok = true) →
      s.rx = found_replies envs ++ rest →
      ∃ s2, run (envs.map (fun e => (Call.check k.toInt key, e))) s
          = .done (List.replicate envs.length 1) s2
        ∧ s2.services = s.services ∧ s2.rx = rest := by
  intro envs
  induction envs with
  | nil =>
    intro s rest _ _ hrx
    exact ⟨s, rfl, rfl, by simpa [found_replies] using hrx⟩
  | cons e es ih =>
    intro s rest hk hf hrx
    have hg : getline s.rx
        = some (reply_line "check-result".toList (fresh_id e) "found".toList ++ ['\n'],
            found_replies es ++ rest) := by
      rw [hrx]
      have := getline_line _ (found_replies es ++ rest) (found_line_no_newline e)
      simpa [found_replies] using this
    obtain ⟨s1, h1, hsv, hrx1, -⟩ := check_decode e k key s _ _ "found".toList hk
      (hf e (by simp)) hg (chomp_line _)
    have hfound : strcmp "found".toList "found".toList = 0 := by decide
    rw [if_pos hfound] at h1
    obtain ⟨s2, h2, hsv2, hrx2⟩ := ih s1 rest (by rw [hsv]; exact hk)
      (fun e1 he1 => hf e1 (by simp [he1])) hrx1
    refine ⟨s2, ?_, by rw [hsv2, hsv], hrx2⟩
    simp only [List.map_cons, run, Call.exec, h1, h2, List.length_cons, List.replicate_succ]

/-- C16, with two check calls and the ids `1f` and `ab`. -/
theorem check_repeat_found_witness :
    Int.land 3 table_service.K_ALIAS.toInt ≠ 0
    ∧ found_replies
        [{ tv_sec := 1700000000, tv_usec := 42, table_name := "aliases".toList,
           arc4random := 31, fflush_ok := true },
         { tv_sec := 1700000001, tv_usec := 43, table_name := "aliases".toList,
           arc4random := 171, fflush_ok := true }]
      = "check-result|1f|found\ncheck-result|ab|found\n".toList
    ∧ (run
        [(Call.check table_service.K_ALIAS.toInt "root".toList,
          { tv_sec := 1700000000, tv_usec := 42, table_name := "aliases".toList,
            arc4random := 31, fflush_ok := true }),
         (Call.check table_service.K_ALIAS.toInt "root".toList,
          { tv_sec := 1700000001, tv_usec := 43, table_name := "aliases".toList,
            arc4random := 171, fflush_ok := true })]
        { services := 3, id := [], line := [],
          rx := "check-result|1f|found\ncheck-result|ab|found\n".toList, tx := [] }).val?
      = some [1, 1] :=
  ⟨by decide, by decide,
    match check_repeat_found table_service.K_ALIAS "root".toList
        [{ tv_sec := 1700000000, tv_usec := 42, table_name := "aliases".toList,
           arc4random := 31, fflush_ok := true },
         { tv_sec := 1700000001, tv_usec := 43, table_name := "aliases".toList,
           arc4random := 171, fflush_ok := true }]
        { services := 3, id := [], line := [],
          rx := "check-result|1f|found\ncheck-result|ab|found\n".toList, tx := [] }
        [] (by decide) (by decide) (by decide) with
    | ⟨_, h, _⟩ => by
      have h1 := congrArg Result.val? h
      exact h1⟩

end Procexec
